import Mathlib

set_option maxRecDepth 100000
set_option autoImplicit false

/-
Verification of the relevance-analysis pipeline of the productivity-webapp
repository (Node.js/Express).  The definitions below are a shallow embedding
of the JavaScript sources:

  * services/AIAnalysisService.js  (response normalizer, repair ladder,
    fallback analysis, prompt truncation, enum coercion),
  * services/YouTubeService.js     (URL validation, id extraction, transcript
    acquisition, metadata resolution, mock transcripts),
  * routes/analysis.js             (request admission for POST /analyze).

Modelling conventions:
  * JavaScript strings are Lean `String`s / `List Char`; the algorithms work
    on `List Char` and all recursion is structural (on the list or on a fuel
    `Nat`) so that every definition reduces inside the kernel.
  * JSON numbers are modelled as integers (`Int`); a fractional or exponent
    part is accepted by the parser but contributes only its integer part.
    No claim involves non-integer numbers.
  * I/O (the Ollama chat call, YouTube caption fetch, Innertube metadata
    fetch) is modelled by passing the outcome of the call as an argument.
  * `new Date().toISOString()` is modelled by a presence flag.
  * Thrown JavaScript exceptions are modelled with `Except`.
-/

/-! ## Character classes and basic list-of-char utilities -/

/-- Model of the JavaScript `\s` character class (and of `String.prototype.trim`),
restricted to the ASCII whitespace characters; the exotic Unicode members are
not used by any input considered here. -/
def isJsWs (c : Char) : Bool :=
  c = ' ' || c = '\t' || c = '\n' || c = '\r' || c = '\x0b' || c = '\x0c'

/-- Whitespace accepted by `JSON.parse` between tokens (ECMA-404): space, tab,
line feed, carriage return.  Note this is strictly smaller than `\s`. -/
def isJsonWs (c : Char) : Bool :=
  c = ' ' || c = '\t' || c = '\n' || c = '\r'

def isDigitCh (c : Char) : Bool := '0' ≤ c && c ≤ '9'

def isHexDigitCh (c : Char) : Bool :=
  isDigitCh c || ('a' ≤ c && c ≤ 'f') || ('A' ≤ c && c ≤ 'F')

def hexDigitVal (c : Char) : Nat :=
  if isDigitCh c then c.toNat - '0'.toNat
  else if 'a' ≤ c && c ≤ 'f' then c.toNat - 'a'.toNat + 10
  else c.toNat - 'A'.toNat + 10

def digitsToNat (l : List Char) : Nat :=
  l.foldl (fun acc c => acc * 10 + (c.toNat - '0'.toNat)) 0

def hexDigitsToNat (l : List Char) : Nat :=
  l.foldl (fun acc c => acc * 16 + hexDigitVal c) 0

/-- Model of `String.prototype.toUpperCase` on the ASCII range. -/
def upperCh (c : Char) : Char :=
  if 'a' ≤ c && c ≤ 'z' then Char.ofNat (c.toNat - 32) else c

def upperAscii (s : String) : String := String.mk (s.data.map upperCh)

def lowerCh (c : Char) : Char :=
  if 'A' ≤ c && c ≤ 'Z' then Char.ofNat (c.toNat + 32) else c

/-- Model of `String.prototype.trim`. -/
def jsTrim (l : List Char) : List Char :=
  ((l.dropWhile isJsWs).reverse.dropWhile isJsWs).reverse

def jsTrimS (s : String) : String := String.mk (jsTrim s.data)

/-- Index of the first occurrence of a character (`String.prototype.indexOf`,
with absence as `none` instead of `-1`). -/
def firstIdxOf : List Char → Char → Option Nat
  | [], _ => none
  | a :: as, c => if a = c then some 0 else (firstIdxOf as c).map (· + 1)

/-- Index of the last occurrence of a character (`String.prototype.lastIndexOf`). -/
def lastIdxOf : List Char → Char → Option Nat
  | [], _ => none
  | a :: as, c =>
    match lastIdxOf as c with
    | some i => some (i + 1)
    | none => if a = c then some 0 else none

/-- `lastIndexOf` with the JavaScript `-1` convention for absence. -/
def lastIdxInt (l : List Char) (c : Char) : Int :=
  match lastIdxOf l c with
  | some i => Int.ofNat i
  | none => -1

/-- Index of the first occurrence of a (non-empty) substring. -/
def firstSubIdx : List Char → List Char → Option Nat
  | [], pat => if pat.isEmpty then some 0 else none
  | l@(_ :: rest), pat =>
    if pat.isPrefixOf l then some 0 else (firstSubIdx rest pat).map (· + 1)

def containsSub (l pat : List Char) : Bool := (firstSubIdx l pat).isSome

def lastSubIdxAux : List Char → List Char → Nat → Option Nat → Option Nat
  | [], _, _, best => best
  | l@(_ :: rest), pat, i, best =>
    lastSubIdxAux rest pat (i + 1) (if pat.isPrefixOf l then some i else best)

/-- Index of the last occurrence of a (non-empty) substring
(`String.prototype.lastIndexOf` with a string argument). -/
def lastSubIdx (l pat : List Char) : Option Nat := lastSubIdxAux l pat 0 none

def countCh (l : List Char) (c : Char) : Nat := (l.filter (fun x => x = c)).length

/-! ## JSON value model and a model of `JSON.parse` -/

/-- JavaScript values produced by `JSON.parse`.  Numbers carry an `Int`
(see the header note); objects keep their key/value pairs in source order,
possibly with duplicate keys (a later binding shadows an earlier one, as in
JavaScript). -/
inductive Json where
  | null : Json
  | bool : Bool → Json
  | num : Int → Json
  | str : String → Json
  | arr : List Json → Json
  | obj : List (String × Json) → Json

/-- Lookup of a property among an object's own pairs: the last binding for a
key wins, matching JavaScript object-literal semantics. -/
def objGetLast : List (String × Json) → String → Option Json
  | [], _ => none
  | (k, v) :: rest, key =>
    match objGetLast rest key with
    | some v2 => some v2
    | none => if k = key then some v else none

/-- Total model of property access `base[key]` for bases on which access does
not throw.  Accessing a property of `null` throws in JavaScript and is handled
separately by the callers (`Except.error`); on every other non-object base the
access yields `undefined`, modelled as `none`. -/
def jsGetT (base : Json) (key : String) : Option Json :=
  match base with
  | Json.obj fs => objGetLast fs key
  | _ => none

/-- Truthiness of a JavaScript value (`NaN` cannot occur inside `Json`). -/
def jsTruthy : Json → Bool
  | Json.null => false
  | Json.bool b => b
  | Json.num n => n ≠ 0
  | Json.str s => s ≠ ""
  | Json.arr _ => true
  | Json.obj _ => true

/-- String conversion of a value as performed inside a template literal,
depth-capped by fuel (display recurses through nested arrays; no value in
this development is nested deeper than the cap used by `jsDisplay`).
Inside `Array.prototype.join`, a `null` element displays as the empty
string, which is the second equation of the array case. -/
def jsDisplayF : Nat → Json → String
  | 0, _ => ""
  | _ + 1, Json.null => "null"
  | _ + 1, Json.bool b => if b then "true" else "false"
  | _ + 1, Json.num n => toString n
  | _ + 1, Json.str s => s
  | fuel + 1, Json.arr xs =>
    String.intercalate "," (xs.map (fun j =>
      match j with
      | Json.null => ""
      | j => jsDisplayF fuel j))
  | _ + 1, Json.obj _ => "[object Object]"

def jsDisplay (j : Json) : String := jsDisplayF 100 j

/-- Display of an element inside `Array.prototype.join` (`null` and
`undefined` elements become the empty string). -/
def jsDisplayElem : Json → String
  | Json.null => ""
  | j => jsDisplay j

/-- Model of `array.join(sep)`. -/
def jsJoin (xs : List Json) (sep : String) : String :=
  String.intercalate sep (xs.map jsDisplayElem)

/-- Fractional part of a JSON number: `.` followed by at least one digit. -/
def jpFrac : List Char → Option (List Char)
  | '.' :: rest =>
    let ds := rest.takeWhile isDigitCh
    if ds.isEmpty then none else some (rest.drop ds.length)
  | l => some l

/-- Exponent part of a JSON number: `e`/`E`, optional sign, at least one digit. -/
def jpExp : List Char → Option (List Char)
  | [] => some []
  | e :: rest =>
    if e = 'e' || e = 'E' then
      let r1 := match rest with
        | s :: r => if s = '+' || s = '-' then r else s :: r
        | [] => []
      let ds := r1.takeWhile isDigitCh
      if ds.isEmpty then none else some (r1.drop ds.length)
    else some (e :: rest)

/-- JSON number: optional minus, integer part without leading zeros, then
optional fraction and exponent (consumed but contributing only the integer
part to the value, per the header note). -/
def jpNumber (l : List Char) : Option (Json × List Char) :=
  let neg : Bool := match l with | '-' :: _ => true | _ => false
  let l1 := match l with | '-' :: r => r | _ => l
  let ds := l1.takeWhile isDigitCh
  if ds.isEmpty then none
  else if ds.length > 1 && ds.headI = '0' then none
  else
    match jpFrac (l1.drop ds.length) with
    | none => none
    | some r2 =>
      match jpExp r2 with
      | none => none
      | some r3 =>
        let n : Int := Int.ofNat (digitsToNat ds)
        some (Json.num (if neg then -n else n), r3)

mutual

/-- One JSON value, after the point where leading whitespace may occur. -/
def jpValue : Nat → List Char → Option (Json × List Char)
  | 0, _ => none
  | fuel + 1, l =>
    match l.dropWhile isJsonWs with
    | '\x7b' :: rest =>
      (match rest.dropWhile isJsonWs with
       | '\x7d' :: r2 => some (Json.obj [], r2)
       | _ =>
         match jpMembers fuel rest with
         | some (fs, r2) => some (Json.obj fs, r2)
         | none => none)
    | '[' :: rest =>
      (match rest.dropWhile isJsonWs with
       | ']' :: r2 => some (Json.arr [], r2)
       | _ =>
         match jpElements fuel rest with
         | some (vs, r2) => some (Json.arr vs, r2)
         | none => none)
    | '"' :: rest =>
      (match jpStringChars fuel rest with
       | some (cs, r2) => some (Json.str (String.mk cs), r2)
       | none => none)
    | 't' :: 'r' :: 'u' :: 'e' :: rest => some (Json.bool true, rest)
    | 'f' :: 'a' :: 'l' :: 's' :: 'e' :: rest => some (Json.bool false, rest)
    | 'n' :: 'u' :: 'l' :: 'l' :: rest => some (Json.null, rest)
    | rest => jpNumber rest

/-- Members of an object, positioned just after `{` (the empty object is
handled by `jpValue`). -/
def jpMembers : Nat → List Char → Option (List (String × Json) × List Char)
  | 0, _ => none
  | fuel + 1, l =>
    match l.dropWhile isJsonWs with
    | '"' :: rest =>
      (match jpStringChars fuel rest with
       | some (k, r2) =>
         (match r2.dropWhile isJsonWs with
          | ':' :: r3 =>
            (match jpValue fuel r3 with
             | some (v, r4) =>
               (match r4.dropWhile isJsonWs with
                | ',' :: r5 =>
                  (match jpMembers fuel r5 with
                   | some (fs, r6) => some ((String.mk k, v) :: fs, r6)
                   | none => none)
                | '\x7d' :: r5 => some ([(String.mk k, v)], r5)
                | _ => none)
             | none => none)
          | _ => none)
       | none => none)
    | _ => none

/-- Elements of an array, positioned just after `[` (the empty array is
handled by `jpValue`). -/
def jpElements : Nat → List Char → Option (List Json × List Char)
  | 0, _ => none
  | fuel + 1, l =>
    match jpValue fuel l with
    | some (v, r2) =>
      (match r2.dropWhile isJsonWs with
       | ',' :: r3 =>
         (match jpElements fuel r3 with
          | some (vs, r4) => some (v :: vs, r4)
          | none => none)
       | ']' :: r3 => some ([v], r3)
       | _ => none)
    | none => none

/-- Characters of a JSON string, positioned just after the opening quote.
Escapes follow ECMA-404; a `\uXXXX` escape denoting a surrogate half is not
representable as a Lean `Char` and is modelled as a parse failure (no claim
involves surrogate escapes).  Raw control characters are rejected as in
`JSON.parse`. -/
def jpStringChars : Nat → List Char → Option (List Char × List Char)
  | 0, _ => none
  | fuel + 1, l =>
    match l with
    | '"' :: rest => some ([], rest)
    | '\\' :: e :: rest =>
      let esc : Option (Char × List Char) :=
        if e = '"' then some ('"', rest)
        else if e = '\\' then some ('\\', rest)
        else if e = '/' then some ('/', rest)
        else if e = 'b' then some ('\x08', rest)
        else if e = 'f' then some ('\x0c', rest)
        else if e = 'n' then some ('\n', rest)
        else if e = 'r' then some ('\r', rest)
        else if e = 't' then some ('\t', rest)
        else if e = 'u' then
          match rest with
          | a :: b :: c :: d :: r2 =>
            if isHexDigitCh a && isHexDigitCh b && isHexDigitCh c && isHexDigitCh d then
              let n := hexDigitsToNat [a, b, c, d]
              if n < 55296 || 57344 ≤ n then some (Char.ofNat n, r2) else none
            else none
          | _ => none
        else none
      (match esc with
       | some (c, r2) =>
         (match jpStringChars fuel r2 with
          | some (cs, r3) => some (c :: cs, r3)
          | none => none)
       | none => none)
    | c :: rest =>
      if c.toNat < 32 then none
      else
        (match jpStringChars fuel rest with
         | some (cs, r2) => some (c :: cs, r2)
         | none => none)
    | [] => none

end

/-- Model of `JSON.parse`: parse one value and require only whitespace after
it; `none` models a thrown `SyntaxError`. -/
def jsonParse (l : List Char) : Option Json :=
  match jpValue (l.length + 1) l with
  | some (v, rest) => if (rest.dropWhile isJsonWs).isEmpty then some v else none
  | none => none

/-! ## Model of `parseInt` -/

/-- Leading-prefix integer parse of a string, as `parseInt(s)` (radix
auto-detection: optional sign, optional `0x`/`0X` hex prefix, else decimal);
`none` models `NaN`. -/
def parseIntStr (l : List Char) : Option Int :=
  let t := l.dropWhile isJsWs
  let neg : Bool := match t with | '-' :: _ => true | _ => false
  let t1 := match t with
    | '-' :: r => r
    | '+' :: r => r
    | _ => t
  match t1 with
  | '0' :: x :: rest =>
    if x = 'x' || x = 'X' then
      let hs := rest.takeWhile isHexDigitCh
      if hs.isEmpty then none
      else
        let n : Int := Int.ofNat (hexDigitsToNat hs)
        some (if neg then -n else n)
    else
      let ds := ('0' :: x :: rest).takeWhile isDigitCh
      let n : Int := Int.ofNat (digitsToNat ds)
      some (if neg then -n else n)
  | _ =>
    let ds := t1.takeWhile isDigitCh
    if ds.isEmpty then none
    else
      let n : Int := Int.ofNat (digitsToNat ds)
      some (if neg then -n else n)

/-- `parseInt(v)` on an arbitrary value: the argument is first converted to a
string (for which `undefined` prints as `"undefined"`), then parsed. -/
def parseIntJs (v : Option Json) : Option Int :=
  match v with
  | none => parseIntStr "undefined".data
  | some j => parseIntStr (jsDisplay j).data

/-- Model of `x || d` for an integer-or-`NaN` left operand (`NaN` and `0` are
falsy). -/
def jsOrInt (v : Option Int) (dflt : Int) : Int :=
  match v with
  | some n => if n = 0 then dflt else n
  | none => dflt

/-- Model of `v || d` on values (absent or falsy left operand yields the
default). -/
def jsOrJ (v : Option Json) (dflt : Json) : Json :=
  match v with
  | some j => if jsTruthy j then j else dflt
  | none => dflt

/-- Model of `Math.max(0, Math.min(100, x))`. -/
def clampScore (x : Int) : Int := max 0 (min 100 x)

/-! ## AIAnalysisService: response cleaning and repair
(services/AIAnalysisService.js) -/

/-- Removal of `<think> ... </think>` blocks,
`cleanedText.replace(/<think>[\s\S]*?<\/think>/g, '')`: repeatedly drop the
span from the first `<think>` to the earliest following `</think>`; an
unclosed `<think>` matches nothing.  Fuel is the input length. -/
def stripThinkTagsF : Nat → List Char → List Char
  | 0, l => l
  | fuel + 1, l =>
    match firstSubIdx l "<think>".data with
    | none => l
    | some i =>
      let after := l.drop (i + 7)
      match firstSubIdx after "</think>".data with
      | none => l
      | some j => l.take i ++ stripThinkTagsF fuel (after.drop (j + 8))

def stripThinkTags (l : List Char) : List Char := stripThinkTagsF l.length l

/-- The regex `/\{[\s\S]*\}/`: the leftmost-greedy match runs from the first
opening brace to the last closing brace, provided the latter comes after the
former. -/
def braceSpan (l : List Char) : Option (List Char) :=
  match firstIdxOf l '\x7b' with
  | none => none
  | some i =>
    match lastIdxOf l '\x7d' with
    | some j => if i < j then some ((l.take (j + 1)).drop i) else none
    | none => none

/-- `jsonText.replace(/,(\s*[}\]])/g, '$1')`: drop a comma standing directly
before optional whitespace and a closing brace/bracket; matches are
non-overlapping, left to right. -/
def fixTrailingCommas : Nat → List Char → List Char
  | 0, l => l
  | _ + 1, [] => []
  | fuel + 1, c :: rest =>
    if c = ',' then
      let ws := rest.takeWhile isJsWs
      match rest.dropWhile isJsWs with
      | b :: tail2 =>
        if b = '\x7d' || b = ']' then ws ++ b :: fixTrailingCommas fuel tail2
        else c :: fixTrailingCommas fuel rest
      | [] => c :: fixTrailingCommas fuel rest
    else c :: fixTrailingCommas fuel rest

/-- `jsonText.replace(/"\s*\n\s*"/g, '",\n    "')`: two quotes separated by
whitespace containing a line feed become `",` line feed, four spaces, `"`;
the match consumes both quotes.  Applied twice by `fixCommonJsonIssues`
(once for "array commas", once for "object commas", same regex). -/
def fixNewlineCommas : Nat → List Char → List Char
  | 0, l => l
  | _ + 1, [] => []
  | fuel + 1, c :: rest =>
    if c = '"' then
      let ws := rest.takeWhile isJsWs
      match rest.dropWhile isJsWs with
      | q :: tail2 =>
        if q = '"' && ws.contains '\n' then
          '"' :: ',' :: '\n' :: ' ' :: ' ' :: ' ' :: ' ' :: '"' ::
            fixNewlineCommas fuel tail2
        else c :: fixNewlineCommas fuel rest
      | [] => c :: fixNewlineCommas fuel rest
    else c :: fixNewlineCommas fuel rest

/-- Removal of content before the first `{` (a no-op when `{` is first or
absent). -/
def stripBeforeBrace (l : List Char) : List Char :=
  match firstIdxOf l '\x7b' with
  | some i => if 0 < i then l.drop i else l
  | none => l

/-- Removal of content after the last `}` (a no-op when `}` is last or
absent). -/
def stripAfterBrace (l : List Char) : List Char :=
  match lastIdxOf l '\x7d' with
  | some i => if i + 1 < l.length then l.take (i + 1) else l
  | none => l

/-- `fixCommonJsonIssues`: trailing commas, the newline-comma repair twice,
then strip before the first `{` and after the last `}`. -/
def fixCommonJsonIssues (l : List Char) : List Char :=
  let s1 := fixTrailingCommas l.length l
  let s2 := fixNewlineCommas s1.length s1
  let s3 := fixNewlineCommas s2.length s2
  stripAfterBrace (stripBeforeBrace s3)

/-- End index (one past) of the last match of `/\{"time":[^}]+\}/g` in the
text, as used by the "smart completion" of `completeIncompleteJson`;
matches are non-overlapping, left to right. -/
def lastTimeObjEndAux : Nat → List Char → Nat → Option Nat → Option Nat
  | 0, _, _, best => best
  | _ + 1, [], _, best => best
  | fuel + 1, l@(_ :: rest), i, best =>
    if ("\x7b\"time\":".data).isPrefixOf l then
      let afterPat := l.drop 8
      let body := afterPat.takeWhile (fun c => c != '\x7d')
      if 0 < body.length ∧ body.length < afterPat.length then
        let mlen := 8 + body.length + 1
        lastTimeObjEndAux fuel (l.drop mlen) (i + mlen) (some (i + mlen))
      else lastTimeObjEndAux fuel rest (i + 1) best
    else lastTimeObjEndAux fuel rest (i + 1) best

def lastTimeObjEnd (l : List Char) : Option Nat := lastTimeObjEndAux l.length l 0 none

/-- `completeIncompleteJson`: trim; when the text mentions `"description":`
and does not end in `}`, truncate to the last complete `{"time": ... }`
object and close the array; then append the missing `]`s and `}`s counted on
the (possibly truncated) text — brackets first, braces second. -/
def completeIncompleteJson (jsonText : List Char) : List Char :=
  let completed := jsTrim jsonText
  let completed :=
    if containsSub completed "\"description\":".data &&
        !(completed.getLast? = some '\x7d') then
      match lastTimeObjEnd completed with
      | some e => completed.take e ++ [']', '\x7d']
      | none => completed
    else completed
  let ob := countCh completed '\x7b'
  let cb := countCh completed '\x7d'
  let obk := countCh completed '['
  let cbk := countCh completed ']'
  completed ++ List.replicate (obk - cbk) ']' ++ List.replicate (ob - cb) '\x7d'

/-- The repair applied when the first `JSON.parse` throws
(`parseAnalysisResponse`, inner catch): if the text mentions both
`"timestamps":[` and `"description":`, truncate after the last occurrence of
`"}` (provided it is not at position 0) and close with `]}`; otherwise append
the missing `}`s (counted first) and then the missing `]`s. -/
def repairJsonStructure (jsonText : List Char) : List Char :=
  if containsSub jsonText "\"timestamps\":[".data &&
      containsSub jsonText "\"description\":".data then
    match lastSubIdx jsonText ['"', '\x7d'] with
    | some idx =>
      if 0 < idx then jsonText.take (idx + 2) ++ [']', '\x7d'] else jsonText
    | none => jsonText
  else
    let ob := countCh jsonText '\x7b'
    let cb := countCh jsonText '\x7d'
    let obk := countCh jsonText '['
    let cbk := countCh jsonText ']'
    jsonText ++ List.replicate (ob - cb) '\x7d' ++ List.replicate (obk - cbk) ']'

/-- Extraction ladder of `parseAnalysisResponse` (before parsing): the
brace-span regex; else — the fenced ```json alternative is unreachable, since
any fenced structured span contains a brace pair and would already have been
matched — the substring from the first `{`, run through
`completeIncompleteJson`.  `none` models the `No JSON found` throw. -/
def extractJsonSpan (cleaned : List Char) : Option (List Char) :=
  match braceSpan cleaned with
  | some t => some t
  | none =>
    match firstIdxOf cleaned '\x7b' with
    | some i => some (completeIncompleteJson (cleaned.drop i))
    | none => none

/-! ## AIAnalysisService: enum coercion and field normalization -/

def validRecommendations : List String :=
  ["HIGHLY_RECOMMENDED", "RECOMMENDED", "PARTIALLY_RELEVANT", "NOT_RECOMMENDED"]

def validDifficultyLevels : List String := ["BEGINNER", "INTERMEDIATE", "ADVANCED"]

def validRelevanceLevels : List String := ["HIGH", "MEDIUM", "LOW"]

def validSkipRecommendations : List String :=
  ["MUST_WATCH", "RECOMMENDED", "OPTIONAL", "SKIP"]

/-- `normalizeRecommendation`: `recommendation?.toUpperCase()` — absent and
`null` inputs short-circuit to `undefined` and take the default; a string is
uppercased and kept when valid; any other value throws (`toUpperCase` is not
a function on it). -/
def normalizeRecommendation (v : Option Json) : Except Unit String :=
  match v with
  | none => Except.ok "PARTIALLY_RELEVANT"
  | some Json.null => Except.ok "PARTIALLY_RELEVANT"
  | some (Json.str s) =>
    let u := upperAscii s
    Except.ok (if validRecommendations.contains u then u else "PARTIALLY_RELEVANT")
  | some _ => Except.error ()

/-- `normalizeDifficultyLevel` (and its alias `normalizeSkillLevel`). -/
def normalizeDifficultyLevel (v : Option Json) : Except Unit String :=
  match v with
  | none => Except.ok "INTERMEDIATE"
  | some Json.null => Except.ok "INTERMEDIATE"
  | some (Json.str s) =>
    let u := upperAscii s
    Except.ok (if validDifficultyLevels.contains u then u else "INTERMEDIATE")
  | some _ => Except.error ()

/-- `normalizeRelevance`. -/
def normalizeRelevance (v : Option Json) : Except Unit String :=
  match v with
  | none => Except.ok "MEDIUM"
  | some Json.null => Except.ok "MEDIUM"
  | some (Json.str s) =>
    let u := upperAscii s
    Except.ok (if validRelevanceLevels.contains u then u else "MEDIUM")
  | some _ => Except.error ()

/-- `normalizeSkipRecommendation`. -/
def normalizeSkipRecommendation (v : Option Json) : Except Unit String :=
  match v with
  | none => Except.ok "RECOMMENDED"
  | some Json.null => Except.ok "RECOMMENDED"
  | some (Json.str s) =>
    let u := upperAscii s
    Except.ok (if validSkipRecommendations.contains u then u else "RECOMMENDED")
  | some _ => Except.error ()

/-- `Array.isArray(v) ? v.slice(0, n) : []`. -/
def arrTake (v : Option Json) (n : Nat) : List Json :=
  match v with
  | some (Json.arr l) => l.take n
  | _ => []

/-- `generateInsights`: up to five strings synthesized from the analytics
fields (never from a provided `insights` field). -/
def generateInsights (d : Json) : List String :=
  let i1 := match jsGetT d "alternativeLearning" with
    | some v =>
      if jsTruthy v then ["Alternative learning opportunity: " ++ jsDisplay v] else []
    | none => []
  let i2 := match jsGetT d "actualTopics" with
    | some (Json.arr xs) => ["Main topics covered: " ++ jsJoin xs ", "]
    | _ => []
  let i3 := match jsGetT d "relatedSkills" with
    | some (Json.arr xs) => ["Related skills you can develop: " ++ jsJoin xs ", "]
    | _ => []
  let i4 := match jsGetT d "nextSteps" with
    | some v => if jsTruthy v then ["Recommended next steps: " ++ jsDisplay v] else []
    | none => []
  let i5 := match jsGetT d "prerequisites" with
    | some v => if jsTruthy v then ["Prerequisites needed: " ++ jsDisplay v] else []
    | none => []
  (i1 ++ i2 ++ i3 ++ i4 ++ i5).take 5

/-! ## AIAnalysisService: result record and the three result builders -/

/-- The analysis record as built by the service.  The three builders
(`parseAnalysisResponse` validation, `getSimplifiedAnalysis`,
`fallbackAnalysis`) set different subsets of keys; a key a builder does not
set is `none` (JavaScript `undefined`).  `generatedAt` is a presence flag for
`new Date().toISOString()`. -/
structure AnalysisResult where
  matchScore : Int
  recommendation : String
  keyPoints : List Json
  reasoning : Json
  actualTopics : Option (List Json) := none
  skillLevel : Option Json := none
  timeToComplete : Option Json := none
  alternativeLearning : Option Json := none
  relatedSkills : Option (List Json) := none
  prerequisites : Option Json := none
  nextSteps : Option Json := none
  timestamps : Option (List Json) := none
  insights : List String
  relevantTimestamps : List Json
  timeEfficiencyTips : Option (List String) := none
  prerequisiteCheck : Option String := none
  difficultyLevel : Json
  estimatedLearningTime : Json
  learningPath : Option (List (String × String)) := none
  contentQuality : Option (List (String × String)) := none
  generatedAt : Bool

/-- Normalization of one non-`null` timestamp entry: `relevance` and
`skipRecommendation` are coerced, the six text fields take `||` defaults. -/
def normalizeTimestampEntryBody (ts : Json) : Except Unit Json :=
  match normalizeRelevance (jsGetT ts "relevance") with
    | Except.error e => Except.error e
    | Except.ok relevance =>
      match normalizeSkipRecommendation (jsGetT ts "skipRecommendation") with
      | Except.error e => Except.error e
      | Except.ok skipRec =>
        Except.ok (Json.obj
          [("time", jsOrJ (jsGetT ts "time") (Json.str "0:00")),
           ("topic", jsOrJ (jsGetT ts "topic") (Json.str "Topic not specified")),
           ("description",
             jsOrJ (jsGetT ts "description") (Json.str "Content description not available")),
           ("relevance", Json.str relevance),
           ("learningValue",
             jsOrJ (jsGetT ts "learningValue") (Json.str "Learning value not specified")),
           ("connectionToGoal",
             jsOrJ (jsGetT ts "connectionToGoal") (Json.str "Connection to goal not specified")),
           ("actionable",
             jsOrJ (jsGetT ts "actionable") (Json.str "Actionable insight not available")),
           ("skipRecommendation", Json.str skipRec)])

/-- Normalization of one timestamp entry (the `.map(ts => ...)` body of the
validated path): property access on a `null` entry throws. -/
def normalizeTimestampEntry (ts : Json) : Except Unit Json :=
  match ts with
  | Json.null => Except.error ()
  | _ => normalizeTimestampEntryBody ts

/-- Sequencing of a throwing map over a list (models `Array.prototype.map`
with a possibly-throwing callback). -/
def mapExcept {α β : Type} (f : α → Except Unit β) : List α → Except Unit (List β)
  | [] => Except.ok []
  | a :: as =>
    match f a with
    | Except.error e => Except.error e
    | Except.ok b =>
      match mapExcept f as with
      | Except.error e => Except.error e
      | Except.ok bs => Except.ok (b :: bs)

/-- The `timestamps` field of the validated path:
`Array.isArray ? slice(0,10).map(normalize) : []`. -/
def tsField (d : Json) : Except Unit (List Json) :=
  match jsGetT d "timestamps" with
  | some (Json.arr ts) => mapExcept normalizeTimestampEntry (ts.take 10)
  | _ => Except.ok []

/-- `timestamps.filter(ts => ts.relevance === 'HIGH')`: every element is
inspected (access on a `null` element throws); strict equality with the
string `'HIGH'` holds only for that exact string value. -/
def filterHighRelevance : List Json → Except Unit (List Json)
  | [] => Except.ok []
  | t :: rest =>
    match t with
    | Json.null => Except.error ()
    | _ =>
      let keep : Bool := match jsGetT t "relevance" with
        | some (Json.str s) => s = "HIGH"
        | _ => false
      match filterHighRelevance rest with
      | Except.error e => Except.error e
      | Except.ok l => Except.ok (if keep then t :: l else l)

/-- The legacy `relevantTimestamps` field of the validated path. -/
def relevantTsField (d : Json) : Except Unit (List Json) :=
  match jsGetT d "timestamps" with
  | some (Json.arr ts) =>
    match filterHighRelevance ts with
    | Except.error e => Except.error e
    | Except.ok l => Except.ok (l.take 3)
  | _ => Except.ok []

/-- Validation/normalization of a decoded non-`null` response
(`parseAnalysisResponse`, lines building the returned object).  The throwing
subcomputations are sequenced in source order; all other fields are total. -/
def validateAnalysisBody (d : Json) : Except Unit AnalysisResult :=
  match normalizeRecommendation (jsGetT d "recommendation") with
  | Except.error e => Except.error e
  | Except.ok recommendation =>
    match normalizeDifficultyLevel (jsGetT d "skillLevel") with
    | Except.error e => Except.error e
    | Except.ok skillLevel =>
      match tsField d with
      | Except.error e => Except.error e
      | Except.ok timestamps =>
        match relevantTsField d with
        | Except.error e => Except.error e
        | Except.ok relevantTimestamps =>
          match normalizeDifficultyLevel (jsGetT d "skillLevel") with
          | Except.error e => Except.error e
          | Except.ok difficultyLevel =>
            Except.ok
              { matchScore :=
                  clampScore (jsOrInt (parseIntJs (jsGetT d "matchScore")) 0),
                recommendation := recommendation,
                keyPoints := arrTake (jsGetT d "keyPoints") 6,
                reasoning := jsOrJ (jsGetT d "reasoning") (Json.str "Analysis completed"),
                actualTopics := some (arrTake (jsGetT d "actualTopics") 5),
                skillLevel := some (Json.str skillLevel),
                timeToComplete :=
                  some (jsOrJ (jsGetT d "timeToComplete")
                    (Json.str "Time estimate not available")),
                alternativeLearning :=
                  some (jsOrJ (jsGetT d "alternativeLearning")
                    (Json.str "Alternative learning opportunities not identified")),
                relatedSkills := some (arrTake (jsGetT d "relatedSkills") 5),
                prerequisites :=
                  some (jsOrJ (jsGetT d "prerequisites")
                    (Json.str "No specific prerequisites identified")),
                nextSteps :=
                  some (jsOrJ (jsGetT d "nextSteps")
                    (Json.str "Next learning steps not specified")),
                timestamps := some timestamps,
                insights := generateInsights d,
                relevantTimestamps := relevantTimestamps,
                difficultyLevel := Json.str difficultyLevel,
                estimatedLearningTime :=
                  jsOrJ (jsGetT d "timeToComplete")
                    (Json.str "Time estimate not available"),
                generatedAt := true }

/-- Validation with the initial throwing access on a `null` top value. -/
def validateAnalysisData (d : Json) : Except Unit AnalysisResult :=
  match d with
  | Json.null => Except.error ()
  | _ => validateAnalysisBody d

/-! ## AIAnalysisService: fallback analysis and score extraction -/

/-- Suffix test of the score regex after the digits:
`(?:\s*%|\s*\/100|\s*out of 100)` with the `i` flag.  Each alternative skips
the same maximal whitespace run (the literal that follows starts with a
non-whitespace character, so a shorter run cannot succeed). -/
def scoreSuffixAt (l : List Char) : Bool :=
  let t := l.dropWhile isJsWs
  match t with
  | '%' :: _ => true
  | '/' :: '1' :: '0' :: '0' :: _ => true
  | _ => ("out of 100".data).isPrefixOf ((t.take 10).map lowerCh)

/-- Attempted match of `/(\d{1,3})(?:\s*%|\s*\/100|\s*out of 100)/i` at one
position: one to three digits, greedy with backtracking. -/
def findScoreAt (l : List Char) : Option Nat :=
  let run := (l.takeWhile isDigitCh).length
  if 3 ≤ run ∧ scoreSuffixAt (l.drop 3) then some (digitsToNat (l.take 3))
  else if 2 ≤ run ∧ scoreSuffixAt (l.drop 2) then some (digitsToNat (l.take 2))
  else if 1 ≤ run ∧ scoreSuffixAt (l.drop 1) then some (digitsToNat (l.take 1))
  else none

/-- Leftmost match of the score pattern. -/
def findScore : List Char → Option Nat
  | [] => none
  | l@(_ :: rest) =>
    match findScoreAt l with
    | some n => some n
    | none => findScore rest

/-- `extractMatchScore`: clamped matched score, defaulting to 50. -/
def extractMatchScore (text : String) : Int :=
  match findScore text.data with
  | some n => clampScore (Int.ofNat n)
  | none => 50

/-- `fallbackAnalysis`: the heuristic tier.  Note that it sets
`relevantTimestamps: []` and does not set a `timestamps` key at all. -/
def fallbackAnalysis (analysisText : String) : AnalysisResult :=
  let matchScore := extractMatchScore analysisText
  { matchScore := matchScore,
    recommendation :=
      if 70 ≤ matchScore then "RECOMMENDED"
      else if 40 ≤ matchScore then "PARTIALLY_RELEVANT"
      else "NOT_RECOMMENDED",
    keyPoints :=
      [Json.str "AI analysis completed but response format needs improvement",
       Json.str "Content relevance assessed based on available transcript",
       Json.str "Manual review of video content recommended for detailed insights"],
    insights :=
      ["The AI model provided analysis but in an unexpected format",
       "Video content has been processed and basic relevance determined",
       "Consider re-running analysis or checking AI model configuration",
       if 100 < analysisText.data.length
       then String.mk (analysisText.data.take 200) ++ "..."
       else analysisText],
    reasoning := Json.str
      "Analysis completed using fallback method due to response parsing challenges. The AI model processed the content but returned results in an unexpected format. Basic relevance scoring was applied based on available content analysis.",
    relevantTimestamps := [],
    timeEfficiencyTips := some
      ["Review the full video to identify key learning sections",
       "Take notes on sections that align with your learning intention",
       "Consider breaking the video into smaller segments for focused learning"],
    prerequisiteCheck := some "Prerequisites assessment not available in fallback mode",
    difficultyLevel := Json.str "INTERMEDIATE",
    estimatedLearningTime :=
      Json.str "Time estimate not available - recommend active viewing with note-taking",
    learningPath := some
      [("beforeWatching",
        "Prepare note-taking materials and ensure focused learning environment"),
       ("duringWatching",
        "Take active notes and pause frequently to process information"),
       ("afterWatching",
        "Review notes and identify areas for further research or practice")],
    contentQuality := some
      [("teachingClarity", "Content quality assessment not available in fallback mode"),
       ("practicalExamples", "Practical examples assessment not available in fallback mode"),
       ("comprehensiveness", "Comprehensiveness assessment not available in fallback mode")],
    generatedAt := true }

/-! ## AIAnalysisService: the normalizer entry points -/

/-- The cleaning prefix of `parseAnalysisResponse`: trim, then strip
`<think>` blocks. -/
def cleanedResponse (s : String) : List Char := stripThinkTags (jsTrim s.data)

/-- `parseAnalysisResponse`: extraction, cleanup, parse, one structural
repair and re-parse, validation; every failure anywhere is caught by the
outer catch, which returns `fallbackAnalysis` on the original text.  The
function is total: no error reaches the caller. -/
def parseAnalysisResponse (analysisText : String) : AnalysisResult :=
  match extractJsonSpan (cleanedResponse analysisText) with
  | none => fallbackAnalysis analysisText
  | some span0 =>
    let jsonText := fixCommonJsonIssues span0
    match jsonParse jsonText with
    | some d =>
      (match validateAnalysisData d with
       | Except.ok r => r
       | Except.error _ => fallbackAnalysis analysisText)
    | none =>
      let jsonText2 := repairJsonStructure jsonText
      match jsonParse jsonText2 with
      | some d =>
        (match validateAnalysisData d with
         | Except.ok r => r
         | Except.error _ => fallbackAnalysis analysisText)
      | none => fallbackAnalysis analysisText

/-- The decoded value reached by the first parse attempt of
`parseAnalysisResponse` (used to state losslessness of the direct path). -/
def firstParsedJson (s : String) : Option Json :=
  match extractJsonSpan (cleanedResponse s) with
  | none => none
  | some span0 => jsonParse (fixCommonJsonIssues span0)

/-- The result object built by `getSimplifiedAnalysis` from a decoded simple
response.  `matchScore` uses `|| 50`; `recommendation` is a strict-equality
check; `skillLevel`, `difficultyLevel` and `timestamps` are passed through
raw (no enum coercion, no cap). -/
def buildSimplifiedBody (data : Json) : AnalysisResult :=
  { matchScore := clampScore (jsOrInt (parseIntJs (jsGetT data "matchScore")) 50),
        recommendation :=
          (match jsGetT data "recommendation" with
           | some (Json.str s) => if s = "RECOMMENDED" then "RECOMMENDED" else "NOT_RECOMMENDED"
           | _ => "NOT_RECOMMENDED"),
        keyPoints :=
          (match jsGetT data "keyPoints" with
           | some (Json.arr l) => l.take 3
           | _ => [Json.str "Analysis completed"]),
        reasoning := jsOrJ (jsGetT data "reasoning") (Json.str "Basic relevance analysis completed"),
        actualTopics := some
          (match jsGetT data "actualTopics" with
           | some (Json.arr l) => l
           | _ => [Json.str "Topics not identified"]),
        skillLevel := some (jsOrJ (jsGetT data "skillLevel") (Json.str "INTERMEDIATE")),
        timeToComplete :=
          some (jsOrJ (jsGetT data "timeToComplete") (Json.str "Time estimate not available")),
        alternativeLearning :=
          some (jsOrJ (jsGetT data "alternativeLearning")
            (Json.str "Alternative learning opportunities not identified")),
        relatedSkills := some
          (match jsGetT data "relatedSkills" with
           | some (Json.arr l) => l
           | _ => [Json.str "Skills assessment not available"]),
        prerequisites :=
          some (jsOrJ (jsGetT data "prerequisites") (Json.str "Prerequisites not specified")),
        nextSteps :=
          some (jsOrJ (jsGetT data "nextSteps") (Json.str "Next steps not specified")),
        timestamps := some
          (match jsGetT data "timestamps" with
           | some (Json.arr l) => l
           | _ => []),
        insights := generateInsights data,
        relevantTimestamps := [],
        difficultyLevel := jsOrJ (jsGetT data "skillLevel") (Json.str "INTERMEDIATE"),
        estimatedLearningTime :=
          jsOrJ (jsGetT data "timeToComplete") (Json.str "Manual review recommended"),
        generatedAt := true }

/-- Result building of the simplified tier, with the throwing access on a
`null` decoded value (unreachable from a brace-delimited span, kept for
faithfulness). -/
def buildSimplifiedResult (data : Json) : Except Unit AnalysisResult :=
  match data with
  | Json.null => Except.error ()
  | _ => Except.ok (buildSimplifiedBody data)

/-- `getSimplifiedAnalysis`: the degraded re-request tier.  `simpleResponse`
is the text returned by the shorter re-request (`none` when that call itself
failed); `aiResponse` is the original response, handed to `fallbackAnalysis`
whenever anything in this tier fails. -/
def getSimplifiedAnalysis (simpleResponse : Option String) (aiResponse : String) :
    AnalysisResult :=
  match simpleResponse with
  | none => fallbackAnalysis aiResponse
  | some r =>
    match braceSpan (jsTrim r.data) with
    | none => fallbackAnalysis aiResponse
    | some span =>
      match jsonParse span with
      | none => fallbackAnalysis aiResponse
      | some data =>
        match buildSimplifiedResult data with
        | Except.ok res => res
        | Except.error _ => fallbackAnalysis aiResponse

/-! ## AIAnalysisService: prompt truncation -/

/-- `intelligentTruncate` (used by `buildAnalysisPrompt` with budget 4000):
search backward in the budget window for the last sentence terminator or
paragraph break; cut there when it lies past 80% of the budget, else
hard-cut.  The JavaScript comparison `breakPoint > maxLength * 0.8` is
against an exact float product at budget-scale values and equals the integer
comparison `5 * breakPoint > 4 * maxLength`. -/
def intelligentTruncate (transcript : String) (maxLength : Nat) : String :=
  if transcript.data.length ≤ maxLength then transcript
  else
    let truncated := transcript.data.take maxLength
    let lastSentence := lastIdxInt truncated '.'
    let lastParagraph := lastIdxInt truncated '\n'
    let breakPoint := max lastSentence lastParagraph
    if 4 * (maxLength : Int) < 5 * breakPoint then
      String.mk (transcript.data.take (breakPoint.toNat + 1)) ++
        "\n\n[Content truncated for analysis - full transcript analyzed for timestamps]"
    else String.mk truncated ++ "...[Content truncated for analysis]"

/-- The transcript excerpt embedded by `buildSimpleAnalysisPrompt` — the
prompt builder actually used by `analyzeContent`: an unconditional hard cut
at 2000 characters with an ellipsis, with no sentence-boundary search.  The
surrounding constant instruction text is not modelled. -/
def buildSimpleExcerpt (transcript : String) : String :=
  if 2000 < transcript.data.length
  then String.mk (transcript.data.take 2000) ++ "..."
  else transcript

/-- The transcript excerpt embedded by `buildAnalysisPrompt` (budget 4000,
via `intelligentTruncate`); this builder is not called by `analyzeContent`. -/
def buildDetailedExcerpt (transcript : String) : String :=
  if 4000 < transcript.data.length then intelligentTruncate transcript 4000
  else transcript

/-! ## YouTubeService: URL validation and id extraction
(services/YouTubeService.js) -/

def isYtIdChar (c : Char) : Bool :=
  isDigitCh c || ('a' ≤ c && c ≤ 'z') || ('A' ≤ c && c ≤ 'Z') || c = '_' || c = '-'

def dropLit (lit l : List Char) : Option (List Char) :=
  if lit.isPrefixOf l then some (l.drop lit.length) else none

/-- `validateYouTubeUrl`: the anchored regex
`^(https?:\/\/)?(www\.)?(youtube\.com\/(watch\?v=|embed\/|v\/)|youtu\.be\/)([a-zA-Z0-9_-]{11})`.
The optional scheme and `www.` groups never overlap with the host
alternatives, so greedily consuming them is exact. -/
def validateYouTubeUrl (url : String) : Bool :=
  let l := url.data
  let l := match dropLit "https://".data l with
    | some r => r
    | none => match dropLit "http://".data l with
      | some r => r
      | none => l
  let l := match dropLit "www.".data l with
    | some r => r
    | none => l
  ["youtube.com/watch?v=", "youtube.com/embed/", "youtube.com/v/", "youtu.be/"].any
    fun p =>
      match dropLit p.data l with
      | some r => ((r.take 11).length = 11 && (r.take 11).all isYtIdChar : Bool)
      | none => false

/-- One attempt of the first extraction pattern of `extractVideoId` at a
fixed position, trying the alternatives in their source order. -/
def tryIdAltsAt : List String → List Char → Option String
  | [], _ => none
  | alt :: alts, l =>
    match dropLit alt.data l with
    | some r =>
      let id := r.take 11
      if id.length = 11 && id.all isYtIdChar then some (String.mk id)
      else tryIdAltsAt alts l
    | none => tryIdAltsAt alts l

/-- Leftmost match of
`/(?:youtube\.com\/watch\?v=|youtu\.be\/|youtube\.com\/embed\/|youtube\.com\/v\/)([a-zA-Z0-9_-]{11})/`. -/
def scanForId : List Char → Option String
  | [] => none
  | l@(_ :: rest) =>
    match tryIdAltsAt
        ["youtube.com/watch?v=", "youtu.be/", "youtube.com/embed/", "youtube.com/v/"] l with
    | some id => some id
    | none => scanForId rest

/-- Backtracking of the greedy `.*` of the second pattern
`/youtube\.com\/watch\?.*v=([a-zA-Z0-9_-]{11})/`: the last position within
the current line (dot does not match a line feed) where `v=` plus eleven id
characters match.  `k` counts down from the line length. -/
def lastVEq : Nat → List Char → Option String
  | 0, l =>
    (match dropLit "v=".data l with
     | some r =>
       let id := r.take 11
       if id.length = 11 && id.all isYtIdChar then some (String.mk id) else none
     | none => none)
  | k + 1, l =>
    match
      (match dropLit "v=".data (l.drop (k + 1)) with
       | some r =>
         let id := r.take 11
         if id.length = 11 && id.all isYtIdChar then some (String.mk id) else none
       | none => none) with
    | some id => some id
    | none => lastVEq k l

/-- Leftmost match of the second extraction pattern (only consulted when the
first pattern fails; unreachable after `validateYouTubeUrl`). -/
def scanForIdQuery : List Char → Option String
  | [] => none
  | l@(_ :: rest) =>
    match dropLit "youtube.com/watch?".data l with
    | some r =>
      (match lastVEq (r.takeWhile (fun c => c != '\n')).length r with
       | some id => some id
       | none => scanForIdQuery rest)
    | none => scanForIdQuery rest

/-- `extractVideoId`: `null` unless `validateYouTubeUrl` passes, then the two
patterns in order. -/
def extractVideoId (url : String) : Option String :=
  if !validateYouTubeUrl url then none
  else
    match scanForId url.data with
    | some id => some id
    | none => scanForIdQuery url.data

/-! ## YouTubeService: transcript acquisition -/

/-- `transcript segments -> flat text`: join with spaces, collapse whitespace
runs (`replace(/\s+/g, ' ')`), trim. -/
def collapseWsRuns : Nat → List Char → List Char
  | 0, l => l
  | _ + 1, [] => []
  | fuel + 1, c :: rest =>
    if isJsWs c then ' ' :: collapseWsRuns fuel (rest.dropWhile isJsWs)
    else c :: collapseWsRuns fuel rest

def joinTranscript (texts : List String) : String :=
  let joined := (String.intercalate " " texts).data
  String.mk (jsTrim (collapseWsRuns joined.length joined))

/-- Value obtained from the `mockTranscripts[videoId]` lookup: a plain object
literal inherits from `Object.prototype`, so a video id equal to one of its
property names yields the inherited member (a function or object, not a
transcript string). -/
inductive MockValue where
  | str : String → MockValue
  | inheritedMember : MockValue

def objectProtoKeys : List String :=
  ["constructor", "hasOwnProperty", "isPrototypeOf", "propertyIsEnumerable",
   "toLocaleString", "toString", "valueOf", "__defineGetter__", "__defineSetter__",
   "__lookupGetter__", "__lookupSetter__", "__proto__"]

def rickTranscript : String :=
  "This is a classic music video featuring Rick Astley performing Never Gonna Give You Up. The video includes dancing, singing, and has become an internet meme known as Rickrolling. The song talks about commitment and never letting someone down."

def defaultMockTranscript (videoId : String) : String :=
  "This is a mock transcript for video " ++ videoId ++
    ". In a real scenario, this would contain the actual spoken content from the YouTube video. The transcript would include all the dialogue, narration, and spoken words that appear in the video. This mock content is being used for development and testing purposes when actual transcripts are not available. The content would typically be much longer and contain the actual educational or entertainment content from the video."

/-- `getMockTranscript`: own keys `dQw4w9WgXcQ` and `default` first, then the
inherited `Object.prototype` members (all truthy, so `|| default` does not
rescue them), then the default text. -/
def getMockTranscript (videoId : String) : MockValue :=
  if videoId = "dQw4w9WgXcQ" then MockValue.str rickTranscript
  else if videoId = "default" then MockValue.str (defaultMockTranscript videoId)
  else if objectProtoKeys.contains videoId then MockValue.inheritedMember
  else MockValue.str (defaultMockTranscript videoId)

/-- `process.env.NODE_ENV === 'development' || process.env.MOCK_TRANSCRIPTS === 'true'`. -/
def mockTranscriptsEnabled (nodeEnv mockFlag : String) : Bool :=
  nodeEnv = "development" || mockFlag = "true"

/-- `extractTranscript` of the caption-fetch implementation
(`youtube-transcript` based).  `fetchedSegments` is the list of segment texts
in the final `transcriptArray` after the language-preference attempts (the
fetch I/O itself is modelled by this argument); an empty list stands for
"no segments".  There is no emptiness check after joining: a whitespace-only
segment list yields the empty string as a successful result. -/
def extractTranscriptCaptions (nodeEnv mockFlag : String) (videoUrl : String)
    (fetchedSegments : List String) : Except String MockValue :=
  match extractVideoId videoUrl with
  | none => Except.error "Invalid YouTube URL format"
  | some videoId =>
    if fetchedSegments.isEmpty then
      if mockTranscriptsEnabled nodeEnv mockFlag then
        Except.ok (getMockTranscript videoId)
      else
        Except.error "No transcript available for this video. The video may not have captions enabled or may be private."
    else Except.ok (MockValue.str (joinTranscript fetchedSegments))

/-- Outcome of the Innertube caption fetch, as consumed by the
`youtubei.js`-based `extractTranscript` (src/unnamed/part_000). -/
inductive InnertubeFetch where
  | failure : String → InnertubeFetch
  | noCaptions : InnertubeFetch
  | badStructure : InnertubeFetch
  | segments : List String → InnertubeFetch

/-- `extractTranscript` of the Innertube implementation: explicit failures
for missing captions, missing segment structure, an empty segment list, and
— after joining — an empty transcript string; only a non-empty transcript is
returned. -/
def extractTranscriptInnertube (videoUrl : String) (fetched : InnertubeFetch) :
    Except String String :=
  match extractVideoId videoUrl with
  | none => Except.error "Invalid YouTube URL format"
  | some _ =>
    match fetched with
    | InnertubeFetch.failure msg => Except.error msg
    | InnertubeFetch.noCaptions =>
      Except.error "No transcript available for this video. The video may not have captions enabled or may be private."
    | InnertubeFetch.badStructure =>
      Except.error "No transcript segments found for this video."
    | InnertubeFetch.segments segs =>
      if segs.isEmpty then
        Except.error "No transcript content available for this video."
      else
        let transcript := joinTranscript segs
        if transcript = "" then
          Except.error "Transcript content is empty for this video."
        else Except.ok transcript

/-! ## YouTubeService: metadata resolution -/

/-- The `info.basic_info` fields consumed by the Innertube-based
`getVideoMetadata` (absent and empty-string values are both falsy under `||`). -/
structure BasicInfo where
  title : Option String
  durationText : Option String
  channelName : Option String
  viewCount : Option Int

def orDefaultStr (o : Option String) (dflt : String) : String :=
  match o with
  | some s => if s = "" then dflt else s
  | none => dflt

def orNullStr (o : Option String) : Option String :=
  match o with
  | some s => if s = "" then none else some s
  | none => none

/-- Metadata record returned by the Innertube-based `getVideoMetadata`
(`extractedAt` is a presence flag). -/
structure VideoMetadata where
  videoId : String
  url : String
  title : String
  duration : Option String
  channelName : Option String
  viewCount : Option Int := none
  extractedAt : Bool

/-- The Innertube-based `getVideoMetadata`: an unresolvable URL throws
`Invalid YouTube URL format` before the try block; inside it, any fetch
failure is caught and replaced by the placeholder record with
`title = "Video Title Not Available"` and null duration/channel fields. -/
def getVideoMetadata (videoUrl : String) (fetched : Except Unit BasicInfo) :
    Except Unit VideoMetadata :=
  match extractVideoId videoUrl with
  | none => Except.error ()
  | some videoId =>
    Except.ok
      (match fetched with
       | Except.ok info =>
         { videoId := videoId, url := videoUrl,
           title := orDefaultStr info.title "Unknown Title",
           duration := orNullStr info.durationText,
           channelName := orNullStr info.channelName,
           viewCount :=
             (match info.viewCount with
              | some n => if n = 0 then none else some n
              | none => none),
           extractedAt := true }
       | Except.error _ =>
         { videoId := videoId, url := videoUrl,
           title := "Video Title Not Available",
           duration := none,
           channelName := none,
           extractedAt := true })

/-! ## Route admission (routes/analysis.js, POST /analyze) -/

/-- Decisions taken by the `/analyze` handler before running the pipeline.
The handler consults no shared state: there is no in-flight request set and
no `AnalysisInProgress`-style rejection in the route (this inductive lists
every pre-pipeline outcome in the source). -/
inductive RouteDecision where
  | missingFields : RouteDecision
  | invalidUrl : RouteDecision
  | intentionTooShort : RouteDecision
  | proceed : RouteDecision
deriving DecidableEq

/-- The validation prefix of the `/analyze` handler: missing/empty fields,
URL validation, minimum trimmed intention length of 10. -/
def analyzeAdmission (videoUrl learningIntention : Option String) : RouteDecision :=
  match videoUrl, learningIntention with
  | some u, some i =>
    if u = "" || i = "" then RouteDecision.missingFields
    else if !validateYouTubeUrl u then RouteDecision.invalidUrl
    else if (jsTrimS i).data.length < 10 then RouteDecision.intentionTooShort
    else RouteDecision.proceed
  | _, _ => RouteDecision.missingFields

/-- Number of pipeline executions caused by a batch of concurrent requests:
admission is a pure function of each request body alone (the handler reads
no cross-request state between validation and the pipeline call), so every
admitted request executes the pipeline, independently of the others. -/
def pipelineExecutions (requests : List (Option String × Option String)) : Nat :=
  (requests.filter fun r =>
    match analyzeAdmission r.1 r.2 with
    | RouteDecision.proceed => true
    | _ => false).length

/-! ## Schema predicates and scenario constants -/

/-- Enum-membership of a value: it is a string belonging to the given set. -/
def enumJsonB (j : Json) (valid : List String) : Bool :=
  match j with
  | Json.str s => valid.contains s
  | _ => false

/-- Validity of one normalized timestamp entry: its `relevance` and
`skipRecommendation` properties are strings inside their enum sets. -/
def tsEntryOkB (t : Json) : Bool :=
  (match jsGetT t "relevance" with
   | some (Json.str s) => validRelevanceLevels.contains s
   | _ => false) &&
  (match jsGetT t "skipRecommendation" with
   | some (Json.str s) => validSkipRecommendations.contains s
   | _ => false)

/-- The schema invariant claimed for the normalizer output: score an integer
in [0,100], `recommendation` and `difficultyLevel` in their enum sets, at
most 6 key points and insights, at most 10 timestamp entries each with
coerced enums, and a generation timestamp.  The `timestamps` key itself may
be absent (the heuristic fallback does not set it). -/
def schemaValidB (r : AnalysisResult) : Bool :=
  decide (0 ≤ r.matchScore) &&
    (decide (r.matchScore ≤ 100) &&
    (validRecommendations.contains r.recommendation &&
    (enumJsonB r.difficultyLevel validDifficultyLevels &&
    (decide (r.keyPoints.length ≤ 6) &&
    (decide (r.insights.length ≤ 6) &&
    (decide ((r.timestamps.getD []).length ≤ 10) &&
    ((r.timestamps.getD []).all tsEntryOkB &&
    r.generatedAt)))))))

/-- The part of the schema invariant that the simplified re-request tier does
guarantee (its `difficultyLevel` and `timestamps` are passed through raw). -/
def simplifiedCoreOkB (r : AnalysisResult) : Bool :=
  decide (0 ≤ r.matchScore) &&
    (decide (r.matchScore ≤ 100) &&
    (validRecommendations.contains r.recommendation &&
    (decide (r.keyPoints.length ≤ 6) &&
    (decide (r.insights.length ≤ 6) &&
    r.generatedAt))))

/-- A value is a string, `null`, or absent — the inputs on which the enum
coercers do not throw. -/
def stringOrAbsentB (v : Option Json) : Bool :=
  match v with
  | none => true
  | some (Json.str _) => true
  | some Json.null => true
  | some _ => false

/-- A timestamp entry exactly in the shape requested by the simple prompt:
the eight expected keys in prompt order, all values non-empty strings, the
two enum fields already canonical.  Such an entry is a fixed point of
`normalizeTimestampEntry`. -/
def canonicalTsEntryB (e : Json) : Bool :=
  match e with
  | Json.obj [("time", Json.str t), ("topic", Json.str tp), ("description", Json.str ds),
              ("relevance", Json.str rl), ("learningValue", Json.str lv),
              ("connectionToGoal", Json.str cg), ("actionable", Json.str ac),
              ("skipRecommendation", Json.str sk)] =>
    decide (t ≠ "") &&
      (decide (tp ≠ "") &&
      (decide (ds ≠ "") &&
      (decide (lv ≠ "") &&
      (decide (cg ≠ "") &&
      (decide (ac ≠ "") &&
      (validRelevanceLevels.contains rl &&
      validSkipRecommendations.contains sk))))))
  | _ => false

/-- The `breakPoint` computed by `intelligentTruncate` over a truncated
window. -/
def breakPointOf (l : List Char) : Int :=
  max (lastIdxInt l '.') (lastIdxInt l '\n')

/-- First fully-closed timestamp entry of the truncation scenario. -/
def tsEntryOne : Json := Json.obj
  [("time", Json.str "0:30"), ("topic", Json.str "t1"), ("description", Json.str "d1"),
   ("relevance", Json.str "HIGH"), ("learningValue", Json.str "l1"),
   ("connectionToGoal", Json.str "c1"), ("actionable", Json.str "a1"),
   ("skipRecommendation", Json.str "MUST_WATCH")]

/-- Second fully-closed timestamp entry of the truncation scenario. -/
def tsEntryTwo : Json := Json.obj
  [("time", Json.str "2:15"), ("topic", Json.str "t2"), ("description", Json.str "d2"),
   ("relevance", Json.str "MEDIUM"), ("learningValue", Json.str "l2"),
   ("connectionToGoal", Json.str "c2"), ("actionable", Json.str "a2"),
   ("skipRecommendation", Json.str "OPTIONAL")]

/-- A model response in the expected format, cut off inside the third of
three timestamp entries (spec scenario 4). -/
def truncScenario : String :=
  "\x7b\"matchScore\":88,\"recommendation\":\"RECOMMENDED\",\"keyPoints\":[\"k1\"],\"reasoning\":\"r\",\"timestamps\":[\x7b\"time\":\"0:30\",\"topic\":\"t1\",\"description\":\"d1\",\"relevance\":\"HIGH\",\"learningValue\":\"l1\",\"connectionToGoal\":\"c1\",\"actionable\":\"a1\",\"skipRecommendation\":\"MUST_WATCH\"\x7d,\x7b\"time\":\"2:15\",\"topic\":\"t2\",\"description\":\"d2\",\"relevance\":\"MEDIUM\",\"learningValue\":\"l2\",\"connectionToGoal\":\"c2\",\"actionable\":\"a2\",\"skipRecommendation\":\"OPTIONAL\"\x7d,\x7b\"time\":\"4:00\",\"topic\":\"t3\",\"descr"

/-- A response cut off inside the third of three timestamp entries whose
entries carry no `description` field. -/
def truncNoDescr : String :=
  "\x7b\"matchScore\":90,\"timestamps\":[\x7b\"time\":\"0:30\",\"topic\":\"a\"\x7d,\x7b\"time\":\"1:00\",\"topic\":\"b\"\x7d,\x7b\"time\":\"2:00\",\"to"

/-- A syntactically valid simplified-tier response whose `skillLevel` is not
an enum member and whose `timestamps` array has eleven entries. -/
def simplifiedRaw : String :=
  "\x7b\"matchScore\": 80, \"skillLevel\": \"expert\", \"timestamps\": [1,2,3,4,5,6,7,8,9,10,11]\x7d"

/-- A fully well-formed structured model response that also provides an
`insights` field. -/
def wellFormedResp : String :=
  "\x7b\"matchScore\":85,\"recommendation\":\"RECOMMENDED\",\"keyPoints\":[\"kp1\",\"kp2\"],\"insights\":[\"My insight\"],\"reasoning\":\"good match\",\"actualTopics\":[\"topic A\"],\"skillLevel\":\"BEGINNER\",\"timeToComplete\":\"10 minutes\",\"alternativeLearning\":\"alt\",\"relatedSkills\":[\"skill B\"],\"prerequisites\":\"none needed\",\"nextSteps\":\"practice\",\"timestamps\":[\x7b\"time\":\"0:30\",\"topic\":\"t1\",\"description\":\"d1\",\"relevance\":\"HIGH\",\"learningValue\":\"l1\",\"connectionToGoal\":\"c1\",\"actionable\":\"a1\",\"skipRecommendation\":\"MUST_WATCH\"\x7d]\x7d"

/-- The decoded value of `wellFormedResp` (checked definitionally against the
parser). -/
def wellFormedVal : Json := Json.obj
  [("matchScore", Json.num 85), ("recommendation", Json.str "RECOMMENDED"),
   ("keyPoints", Json.arr [Json.str "kp1", Json.str "kp2"]),
   ("insights", Json.arr [Json.str "My insight"]),
   ("reasoning", Json.str "good match"),
   ("actualTopics", Json.arr [Json.str "topic A"]),
   ("skillLevel", Json.str "BEGINNER"),
   ("timeToComplete", Json.str "10 minutes"),
   ("alternativeLearning", Json.str "alt"),
   ("relatedSkills", Json.arr [Json.str "skill B"]),
   ("prerequisites", Json.str "none needed"),
   ("nextSteps", Json.str "practice"),
   ("timestamps", Json.arr [tsEntryOne])]

/-- A transcript of 2001 characters whose only sentence terminator sits at
index 1998 — inside the last 20% of the 2000-character budget. -/
def midSentenceTranscript : String :=
  String.mk (List.replicate 1998 'a' ++ ['.', 'b', 'c'])

/-- A 15-character transcript with a sentence terminator at index 9, used
against a budget of 10. -/
def tinyTranscript : String :=
  String.mk (List.replicate 9 'a' ++ ['.'] ++ List.replicate 5 'b')

/-- A transcript just over the simple-prompt budget of 2000. -/
def longPlainTranscript : String := String.mk (List.replicate 2001 'x')

/-! ## Helper lemmas -/

theorem clampScore_nonneg (x : Int) : 0 ≤ clampScore x := le_max_left 0 _

theorem clampScore_le (x : Int) : clampScore x ≤ 100 :=
  max_le (by norm_num) (min_le_left _ _)

theorem extractMatchScore_nonneg (t : String) : 0 ≤ extractMatchScore t := by
  unfold extractMatchScore
  cases h : findScore t.data with
  | none => norm_num
  | some n => exact clampScore_nonneg _

theorem extractMatchScore_le (t : String) : extractMatchScore t ≤ 100 := by
  unfold extractMatchScore
  cases h : findScore t.data with
  | none => norm_num
  | some n => exact clampScore_le _

theorem normalizeRecommendation_ok_mem {v : Option Json} {u : String}
    (h : normalizeRecommendation v = Except.ok u) :
    validRecommendations.contains u = true := by
  rcases v with _ | j
  · simp only [normalizeRecommendation] at h
    injection h with h'; subst h'; decide
  · rcases j with _ | b | n | s | xs | fs
    · simp only [normalizeRecommendation] at h
      injection h with h'; subst h'; decide
    · simp only [normalizeRecommendation] at h; cases h
    · simp only [normalizeRecommendation] at h; cases h
    · simp only [normalizeRecommendation] at h
      split at h
      · injection h with h'; subst h'; assumption
      · injection h with h'; subst h'; decide
    · simp only [normalizeRecommendation] at h; cases h
    · simp only [normalizeRecommendation] at h; cases h

theorem normalizeDifficultyLevel_ok_mem {v : Option Json} {u : String}
    (h : normalizeDifficultyLevel v = Except.ok u) :
    validDifficultyLevels.contains u = true := by
  rcases v with _ | j
  · simp only [normalizeDifficultyLevel] at h
    injection h with h'; subst h'; decide
  · rcases j with _ | b | n | s | xs | fs
    · simp only [normalizeDifficultyLevel] at h
      injection h with h'; subst h'; decide
    · simp only [normalizeDifficultyLevel] at h; cases h
    · simp only [normalizeDifficultyLevel] at h; cases h
    · simp only [normalizeDifficultyLevel] at h
      split at h
      · injection h with h'; subst h'; assumption
      · injection h with h'; subst h'; decide
    · simp only [normalizeDifficultyLevel] at h; cases h
    · simp only [normalizeDifficultyLevel] at h; cases h

theorem normalizeRelevance_ok_mem {v : Option Json} {u : String}
    (h : normalizeRelevance v = Except.ok u) :
    validRelevanceLevels.contains u = true := by
  rcases v with _ | j
  · simp only [normalizeRelevance] at h
    injection h with h'; subst h'; decide
  · rcases j with _ | b | n | s | xs | fs
    · simp only [normalizeRelevance] at h
      injection h with h'; subst h'; decide
    · simp only [normalizeRelevance] at h; cases h
    · simp only [normalizeRelevance] at h; cases h
    · simp only [normalizeRelevance] at h
      split at h
      · injection h with h'; subst h'; assumption
      · injection h with h'; subst h'; decide
    · simp only [normalizeRelevance] at h; cases h
    · simp only [normalizeRelevance] at h; cases h

theorem normalizeSkipRecommendation_ok_mem {v : Option Json} {u : String}
    (h : normalizeSkipRecommendation v = Except.ok u) :
    validSkipRecommendations.contains u = true := by
  rcases v with _ | j
  · simp only [normalizeSkipRecommendation] at h
    injection h with h'; subst h'; decide
  · rcases j with _ | b | n | s | xs | fs
    · simp only [normalizeSkipRecommendation] at h
      injection h with h'; subst h'; decide
    · simp only [normalizeSkipRecommendation] at h; cases h
    · simp only [normalizeSkipRecommendation] at h; cases h
    · simp only [normalizeSkipRecommendation] at h
      split at h
      · injection h with h'; subst h'; assumption
      · injection h with h'; subst h'; decide
    · simp only [normalizeSkipRecommendation] at h; cases h
    · simp only [normalizeSkipRecommendation] at h; cases h

theorem generateInsights_len (d : Json) : (generateInsights d).length ≤ 5 := by
  simp only [generateInsights]
  exact List.length_take_le _ _

theorem arrTake_len_le (v : Option Json) (n : Nat) : (arrTake v n).length ≤ n := by
  unfold arrTake
  cases v with
  | none => simp
  | some j =>
    cases j with
    | arr xs => exact List.length_take_le _ _
    | null => simp
    | bool b => simp
    | num m => simp
    | str s => simp
    | obj fs => simp

theorem mapExcept_ok_length {α β : Type} {f : α → Except Unit β} {l : List α}
    {bs : List β} (h : mapExcept f l = Except.ok bs) : bs.length = l.length := by
  induction l generalizing bs with
  | nil =>
    simp only [mapExcept] at h
    injection h with h'; subst h'; rfl
  | cons a as ih =>
    simp only [mapExcept] at h
    rcases hfa : f a with e | b
    · simp only [hfa] at h; cases h
    · simp only [hfa] at h
      rcases hrest : mapExcept f as with e | bs'
      · simp only [hrest] at h; cases h
      · simp only [hrest] at h
        injection h with h'; subst h'
        simp [ih hrest]

theorem mapExcept_ok_mem {α β : Type} {f : α → Except Unit β} {l : List α}
    {bs : List β} (h : mapExcept f l = Except.ok bs) {b : β} (hb : b ∈ bs) :
    ∃ a ∈ l, f a = Except.ok b := by
  induction l generalizing bs with
  | nil =>
    simp only [mapExcept] at h
    injection h with h'; subst h'; cases hb
  | cons a as ih =>
    simp only [mapExcept] at h
    rcases hfa : f a with e | b1
    · simp only [hfa] at h; cases h
    · simp only [hfa] at h
      rcases hrest : mapExcept f as with e | bs'
      · simp only [hrest] at h; cases h
      · simp only [hrest] at h
        injection h with h'; subst h'
        rcases List.mem_cons.mp hb with h1 | h2
        · exact ⟨a, List.mem_cons_self a as, by rw [h1]; exact hfa⟩
        · obtain ⟨a', ha', hfa'⟩ := ih hrest h2
          exact ⟨a', List.mem_cons_of_mem _ ha', hfa'⟩

theorem mapExcept_fixed {α : Type} {f : α → Except Unit α} {l : List α}
    (h : ∀ a ∈ l, f a = Except.ok a) : mapExcept f l = Except.ok l := by
  induction l with
  | nil => rfl
  | cons a as ih =>
    simp only [mapExcept, h a (List.mem_cons_self a as),
      ih (fun x hx => h x (List.mem_cons_of_mem _ hx))]

theorem normalizeTimestampEntryBody_ok {x t : Json}
    (h : normalizeTimestampEntryBody x = Except.ok t) : tsEntryOkB t = true := by
  unfold normalizeTimestampEntryBody at h
  rcases h1 : normalizeRelevance (jsGetT x "relevance") with e | rel
  · simp only [h1] at h; cases h
  · simp only [h1] at h
    rcases h2 : normalizeSkipRecommendation (jsGetT x "skipRecommendation") with e | sk
    · simp only [h2] at h; cases h
    · simp only [h2] at h
      injection h with h'; subst h'
      have hr := normalizeRelevance_ok_mem h1
      have hs := normalizeSkipRecommendation_ok_mem h2
      simp only [tsEntryOkB, jsGetT, objGetLast]
      simp
      exact ⟨by simpa using hr, by simpa using hs⟩

theorem normalizeTimestampEntry_ok {x t : Json}
    (h : normalizeTimestampEntry x = Except.ok t) : tsEntryOkB t = true := by
  unfold normalizeTimestampEntry at h
  rcases x with _ | b | n | s | xs | fs
  · cases h
  all_goals exact normalizeTimestampEntryBody_ok h

theorem tsField_ok {d : Json} {l : List Json} (h : tsField d = Except.ok l) :
    l.length ≤ 10 ∧ ∀ t ∈ l, tsEntryOkB t = true := by
  unfold tsField at h
  rcases hg : jsGetT d "timestamps" with _ | j
  · simp only [hg] at h
    injection h with h'; subst h'; simp
  · rcases j with _ | b | n | s | xs | fs
    · simp only [hg] at h; injection h with h'; subst h'; simp
    · simp only [hg] at h; injection h with h'; subst h'; simp
    · simp only [hg] at h; injection h with h'; subst h'; simp
    · simp only [hg] at h; injection h with h'; subst h'; simp
    · simp only [hg] at h
      constructor
      · rw [mapExcept_ok_length h]
        exact List.length_take_le _ _
      · intro t ht
        obtain ⟨a, _, hfa⟩ := mapExcept_ok_mem h ht
        exact normalizeTimestampEntry_ok hfa
    · simp only [hg] at h; injection h with h'; subst h'; simp

theorem validateAnalysisBody_ok {d : Json} {r : AnalysisResult}
    (h : validateAnalysisBody d = Except.ok r) : schemaValidB r = true := by
  unfold validateAnalysisBody at h
  rcases h1 : normalizeRecommendation (jsGetT d "recommendation") with e | rec
  · simp only [h1] at h; cases h
  · simp only [h1] at h
    rcases h2 : normalizeDifficultyLevel (jsGetT d "skillLevel") with e | sk
    · simp only [h2] at h; cases h
    · simp only [h2] at h
      rcases h3 : tsField d with e | ts
      · simp only [h3] at h; cases h
      · simp only [h3] at h
        rcases h4 : relevantTsField d with e | rel
        · simp only [h4] at h; cases h
        · simp only [h4] at h
          injection h with h'; subst h'
          obtain ⟨hlen, hmem⟩ := tsField_ok h3
          simp only [schemaValidB, Bool.and_eq_true, decide_eq_true_eq]
          refine ⟨clampScore_nonneg _, clampScore_le _,
            normalizeRecommendation_ok_mem h1, ?_, ?_, ?_, ?_, ?_, trivial⟩
          · simpa [enumJsonB] using normalizeDifficultyLevel_ok_mem h2
          · exact arrTake_len_le _ 6
          · exact le_trans (generateInsights_len d) (by norm_num)
          · simpa using hlen
          · simpa [List.all_eq_true] using hmem

theorem validateAnalysisData_ok {d : Json} {r : AnalysisResult}
    (h : validateAnalysisData d = Except.ok r) : schemaValidB r = true := by
  unfold validateAnalysisData at h
  rcases d with _ | b | n | s | xs | fs
  · cases h
  all_goals exact validateAnalysisBody_ok h

theorem schemaValidB_fallback (s : String) : schemaValidB (fallbackAnalysis s) = true := by
  unfold fallbackAnalysis
  simp only [schemaValidB, Bool.and_eq_true, decide_eq_true_eq]
  refine ⟨extractMatchScore_nonneg s, extractMatchScore_le s, ?_, by decide, by simp,
    by simp, by simp, by simp, trivial⟩
  split
  · decide
  split
  · decide
  · decide

theorem upperAscii_of_mem_relevance {s : String}
    (h : validRelevanceLevels.contains s = true) : upperAscii s = s := by
  have h' : s ∈ validRelevanceLevels := by simpa using h
  simp only [validRelevanceLevels, List.mem_cons, List.not_mem_nil, or_false] at h'
  rcases h' with h' | h' | h' <;> (subst h'; decide)

theorem upperAscii_of_mem_skip {s : String}
    (h : validSkipRecommendations.contains s = true) : upperAscii s = s := by
  have h' : s ∈ validSkipRecommendations := by simpa using h
  simp only [validSkipRecommendations, List.mem_cons, List.not_mem_nil, or_false] at h'
  rcases h' with h' | h' | h' | h' <;> (subst h'; decide)

theorem canonicalTsEntry_fixed {e : Json} (h : canonicalTsEntryB e = true) :
    normalizeTimestampEntry e = Except.ok e := by
  unfold canonicalTsEntryB at h
  split at h
  · rename_i t tp ds rl lv cg ac sk
    simp only [Bool.and_eq_true, decide_eq_true_eq] at h
    obtain ⟨ht, htp, hds, hlv, hcg, hac, hrl, hsk⟩ := h
    have hurl := upperAscii_of_mem_relevance hrl
    have husk := upperAscii_of_mem_skip hsk
    have hrl' : rl ∈ validRelevanceLevels := by simpa using hrl
    have hsk' : sk ∈ validSkipRecommendations := by simpa using hsk
    simp [normalizeTimestampEntry, normalizeTimestampEntryBody, jsGetT, objGetLast,
      normalizeRelevance, normalizeSkipRecommendation, hurl, husk, hrl, hsk, hrl', hsk',
      jsOrJ, jsTruthy, ht, htp, hds, hlv, hcg, hac]
  · cases h

theorem filterHigh_ok_of_canonical {ts : List Json}
    (h : ∀ e ∈ ts, canonicalTsEntryB e = true) :
    ∃ l, filterHighRelevance ts = Except.ok l := by
  induction ts with
  | nil => exact ⟨[], rfl⟩
  | cons a as ih =>
    obtain ⟨l, hl⟩ := ih (fun e he => h e (List.mem_cons_of_mem _ he))
    have ha := h a (List.mem_cons_self a as)
    rcases a with _ | b | n | s | xs | fs
    · simp [canonicalTsEntryB] at ha
    all_goals
      simp only [filterHighRelevance, hl]
      exact ⟨_, rfl⟩

theorem normalizeRecommendation_ok_of_stringOrAbsent {v : Option Json}
    (h : stringOrAbsentB v = true) : ∃ u, normalizeRecommendation v = Except.ok u := by
  rcases v with _ | j
  · exact ⟨_, rfl⟩
  · rcases j with _ | b | n | s | xs | fs
    · exact ⟨_, rfl⟩
    · simp [stringOrAbsentB] at h
    · simp [stringOrAbsentB] at h
    · exact ⟨_, rfl⟩
    · simp [stringOrAbsentB] at h
    · simp [stringOrAbsentB] at h

theorem normalizeDifficultyLevel_ok_of_stringOrAbsent {v : Option Json}
    (h : stringOrAbsentB v = true) : ∃ u, normalizeDifficultyLevel v = Except.ok u := by
  rcases v with _ | j
  · exact ⟨_, rfl⟩
  · rcases j with _ | b | n | s | xs | fs
    · exact ⟨_, rfl⟩
    · simp [stringOrAbsentB] at h
    · simp [stringOrAbsentB] at h
    · exact ⟨_, rfl⟩
    · simp [stringOrAbsentB] at h
    · simp [stringOrAbsentB] at h

theorem parseAnalysisResponse_of_firstParsed {s : String} {v : Json}
    (h : firstParsedJson s = some v) :
    parseAnalysisResponse s =
      (match validateAnalysisData v with
       | Except.ok r => r
       | Except.error _ => fallbackAnalysis s) := by
  unfold firstParsedJson at h
  unfold parseAnalysisResponse
  rcases hx : extractJsonSpan (cleanedResponse s) with _ | sp
  · rw [hx] at h; cases h
  · rw [hx] at h
    dsimp only at h
    simp only [hx]
    rw [h]

theorem buildSimplifiedBody_coreOk (data : Json) :
    simplifiedCoreOkB (buildSimplifiedBody data) = true := by
  simp only [buildSimplifiedBody, simplifiedCoreOkB, Bool.and_eq_true, decide_eq_true_eq]
  refine ⟨clampScore_nonneg _, clampScore_le _, ?_, ?_,
    le_trans (generateInsights_len _) (by norm_num), trivial⟩
  · cases hk : jsGetT data "recommendation" with
    | none => decide
    | some j =>
      cases j with
      | str s =>
        dsimp only
        split <;> decide
      | null => decide
      | bool b => dsimp only; decide
      | num n => dsimp only; decide
      | arr xs => dsimp only; decide
      | obj fs => dsimp only; decide
  · cases hk : jsGetT data "keyPoints" with
    | none => simp
    | some j =>
      cases j with
      | arr l => exact le_trans (List.length_take_le _ _) (by norm_num)
      | null => simp
      | bool b => simp
      | num n => simp
      | str st => simp
      | obj fs => simp

theorem buildSimplifiedResult_ok {data : Json} {res : AnalysisResult}
    (h : buildSimplifiedResult data = Except.ok res) :
    simplifiedCoreOkB res = true := by
  unfold buildSimplifiedResult at h
  rcases data with _ | b | n | s | xs | fs
  · cases h
  all_goals (injection h with h'; subst h'; exact buildSimplifiedBody_coreOk _)

theorem simplifiedCoreOkB_fallback (s : String) :
    simplifiedCoreOkB (fallbackAnalysis s) = true := by
  unfold fallbackAnalysis
  simp only [simplifiedCoreOkB, Bool.and_eq_true, decide_eq_true_eq]
  refine ⟨extractMatchScore_nonneg s, extractMatchScore_le s, ?_, by simp, by simp, trivial⟩
  split
  · decide
  split
  · decide
  · decide

theorem lastIdxOf_get {l : List Char} {c : Char} {i : Nat}
    (h : lastIdxOf l c = some i) : l[i]? = some c := by
  induction l generalizing i with
  | nil => cases h
  | cons a as ih =>
    simp only [lastIdxOf] at h
    rcases hr : lastIdxOf as c with _ | j
    · simp only [hr] at h
      by_cases hac : a = c
      · rw [if_pos hac] at h
        injection h with h'; subst h'
        simpa using hac
      · rw [if_neg hac] at h; cases h
    · simp only [hr] at h
      injection h with h'; subst h'
      simpa using ih hr

theorem lastIdxOf_lt_length {l : List Char} {c : Char} {i : Nat}
    (h : lastIdxOf l c = some i) : i < l.length := by
  induction l generalizing i with
  | nil => cases h
  | cons a as ih =>
    simp only [lastIdxOf] at h
    rcases hr : lastIdxOf as c with _ | j
    · simp only [hr] at h
      by_cases hac : a = c
      · rw [if_pos hac] at h
        injection h with h'; subst h'; simp
      · rw [if_neg hac] at h; cases h
    · simp only [hr] at h
      injection h with h'; subst h'
      have := ih hr
      simp only [List.length_cons]
      omega

theorem lastIdxOf_ge {l : List Char} {c : Char} {j : Nat}
    (hj : l[j]? = some c) : ∃ i, lastIdxOf l c = some i ∧ j ≤ i := by
  induction l generalizing j with
  | nil => simp at hj
  | cons a as ih =>
    rcases j with _ | j'
    · have hac : a = c := by simpa using hj
      rcases hr : lastIdxOf as c with _ | i'
      · exact ⟨0, by simp [lastIdxOf, hr, hac], Nat.le_refl 0⟩
      · exact ⟨i' + 1, by simp [lastIdxOf, hr], Nat.zero_le _⟩
    · have hj' : as[j']? = some c := by simpa using hj
      obtain ⟨i', hi', hji'⟩ := ih hj'
      exact ⟨i' + 1, by simp [lastIdxOf, hi'], Nat.succ_le_succ hji'⟩

theorem take_full_of_le {α : Type} {l : List α} {n : Nat} (h : l.length ≤ n) :
    l.take n = l := by
  induction l generalizing n with
  | nil => simp
  | cons a as ih =>
    cases n with
    | zero => simp at h
    | succ m => simp only [List.take_succ_cons]; rw [ih (by simpa using h)]

theorem getElem?_take_lt {α : Type} {l : List α} {n i : Nat} (h : i < n) :
    (l.take n)[i]? = l[i]? := by
  induction l generalizing n i with
  | nil => simp
  | cons a as ih =>
    cases n with
    | zero => exact absurd h (Nat.not_lt_zero i)
    | succ m =>
      cases i with
      | zero => simp
      | succ j => simpa using ih (Nat.lt_of_succ_lt_succ h)

/-! ## Claims -/

/-- C1 (counterexample): on the simplified re-request path, a response with
`skillLevel` of `expert` and eleven timestamp entries produces a result whose
`difficultyLevel` is not a member of the difficulty enum and whose
`timestamps` list exceeds ten entries — so the returned object is not
schema-valid on every path of the ladder, contrary to the claim. -/
theorem c1_simplified_path_counterexample :
    (getSimplifiedAnalysis (some simplifiedRaw) "raw model text").difficultyLevel =
        Json.str "expert" ∧
    validDifficultyLevels.contains "expert" = false ∧
    ((getSimplifiedAnalysis (some simplifiedRaw) "raw model text").timestamps.getD
        []).length = 11 :=
  ⟨rfl, by decide, rfl⟩

/-- C1 (amended): for every input string, the normalizer
`parseAnalysisResponse` (a total function — no error reaches the caller)
returns a schema-valid object on all of its paths (direct parse, truncation
repair, heuristic fallback): matchScore is an integer in [0,100],
recommendation and difficultyLevel lie in their enum sets, keyPoints and
insights have at most 6 entries, the timestamps list — when present; the
heuristic fallback omits the key — has at most 10 entries each with coerced
relevance and skipRecommendation, and generatedAt is present.  On the
simplified re-request path only the core part holds (score bounds,
recommendation enum, list caps, generatedAt): difficultyLevel and timestamps
are passed through uncoerced there. -/
theorem c1_normalizer_schema_valid :
    (∀ s : String, schemaValidB (parseAnalysisResponse s) = true) ∧
    (∀ (r : Option String) (a : String),
      simplifiedCoreOkB (getSimplifiedAnalysis r a) = true) := by
  constructor
  · intro s
    unfold parseAnalysisResponse
    split
    · exact schemaValidB_fallback s
    · dsimp only
      split
      · split
        · rename_i heq
          exact validateAnalysisData_ok heq
        · exact schemaValidB_fallback s
      · split
        · split
          · rename_i heq
            exact validateAnalysisData_ok heq
          · exact schemaValidB_fallback s
        · exact schemaValidB_fallback s
  · intro r a
    unfold getSimplifiedAnalysis
    split
    · exact simplifiedCoreOkB_fallback a
    · split
      · exact simplifiedCoreOkB_fallback a
      · split
        · exact simplifiedCoreOkB_fallback a
        · split
          · rename_i heq
            exact buildSimplifiedResult_ok heq
          · exact simplifiedCoreOkB_fallback a

/-- C2 (counterexample): two concurrent requests with the identical
`(videoUrl, learningIntention)` pair both pass admission and both execute the
pipeline — two executions, not one, and neither receives an
`AnalysisInProgress` rejection (no such outcome exists in the route). -/
theorem c2_duplicate_requests_counterexample :
    pipelineExecutions
      [(some "https://youtube.com/watch?v=abc12345678", some "learn Python basics"),
       (some "https://youtube.com/watch?v=abc12345678", some "learn Python basics")] = 2 :=
  rfl

/-- C2 (amended): the `/analyze` route performs no deduplication: admission
is a pure function of the request body, there is no in-flight key set and no
`AnalysisInProgress` rejection, so `n` concurrent identical valid requests
cause exactly `n` pipeline executions. -/
theorem c2_no_dedup_all_admitted_execute
    (videoUrl learningIntention : Option String) (n : Nat)
    (h : analyzeAdmission videoUrl learningIntention = RouteDecision.proceed) :
    pipelineExecutions (List.replicate n (videoUrl, learningIntention)) = n := by
  induction n with
  | zero => rfl
  | succ k ih =>
    rw [List.replicate_succ]
    unfold pipelineExecutions at ih ⊢
    rw [List.filter_cons]
    simp [h, ih]

/-- C2 (witness): three identical valid requests produce three pipeline
executions. -/
theorem c2_no_dedup_witness :
    pipelineExecutions (List.replicate 3
      (some "https://youtube.com/watch?v=abc12345678",
       some "learn Python basics")) = 3 :=
  c2_no_dedup_all_admitted_execute _ _ 3 rfl

/-- C3 (counterexample): for a response truncated after the second of three
timestamp entries whose entries carry no `description` field, the repair
appends the missing braces before the missing brackets, producing invalid
text; the normalizer lands in the heuristic fallback and returns no
timestamp entries at all instead of the two fully-closed ones. -/
theorem c3_no_description_counterexample :
    parseAnalysisResponse truncNoDescr = fallbackAnalysis truncNoDescr ∧
    (fallbackAnalysis truncNoDescr).timestamps = none :=
  ⟨rfl, rfl⟩

/-- C3 (amended): for the documented scenario — a response in the expected
format whose entries contain a `description` field and end with a
string-valued property, truncated after the second of three timestamp
entries — the repair truncates back to the last fully-closed entry,
re-closes the list, and the normalizer returns exactly the two fully-closed
entries, each fully-constructed (canonical), with no parse failure
surfaced. -/
theorem c3_truncation_repair_scenario :
    (parseAnalysisResponse truncScenario).timestamps = some [tsEntryOne, tsEntryTwo] ∧
    ((parseAnalysisResponse truncScenario).timestamps.getD []).length = 2 ∧
    ((parseAnalysisResponse truncScenario).timestamps.getD []).all canonicalTsEntryB
      = true :=
  ⟨rfl, rfl, rfl⟩

/-- C4 (counterexample): a fully well-formed structured response that
provides an `insights` field does not have it mapped 1:1 into the result —
the output `insights` are synthesized from the analytics fields and differ
from the provided list — so normalization is not lossless as claimed. -/
theorem c4_insights_counterexample :
    (match firstParsedJson wellFormedResp with
     | some v => jsGetT v "insights"
     | none => none) = some (Json.arr [Json.str "My insight"]) ∧
    (parseAnalysisResponse wellFormedResp).insights =
      ["Alternative learning opportunity: alt", "Main topics covered: topic A",
       "Related skills you can develop: skill B", "Recommended next steps: practice",
       "Prerequisites needed: none needed"] ∧
    (parseAnalysisResponse wellFormedResp).insights ≠ ["My insight"] :=
  ⟨rfl, rfl, by decide⟩

/-- C4 (amended): for every response whose direct parse succeeds on a value
with well-shaped fields (keyPoints a list of at most 6, reasoning a
non-empty string, timestamps a list of at most 10 canonical entries, and
recommendation/skillLevel string-or-absent), normalization maps keyPoints,
reasoning and the timestamp entries through unchanged; insights, however,
are regenerated from the analytics fields rather than passed through. -/
theorem c4_lossless_modulo_insights
    (s : String) (v : Json) (kp ts : List Json) (reas : String)
    (hparse : firstParsedJson s = some v)
    (hrec : stringOrAbsentB (jsGetT v "recommendation") = true)
    (hsk : stringOrAbsentB (jsGetT v "skillLevel") = true)
    (hkp : jsGetT v "keyPoints" = some (Json.arr kp)) (hkpLen : kp.length ≤ 6)
    (hreas : jsGetT v "reasoning" = some (Json.str reas)) (hreasNe : reas ≠ "")
    (hts : jsGetT v "timestamps" = some (Json.arr ts)) (htsLen : ts.length ≤ 10)
    (htsC : ∀ e ∈ ts, canonicalTsEntryB e = true) :
    (parseAnalysisResponse s).keyPoints = kp ∧
    (parseAnalysisResponse s).reasoning = Json.str reas ∧
    (parseAnalysisResponse s).timestamps = some ts ∧
    (parseAnalysisResponse s).insights = generateInsights v := by
  have hvd : validateAnalysisData v = validateAnalysisBody v := by
    rcases v with _ | b | n | st | xs | fs
    · simp [jsGetT] at hkp
    all_goals rfl
  obtain ⟨rec, hrec'⟩ := normalizeRecommendation_ok_of_stringOrAbsent hrec
  obtain ⟨sk', hsk'⟩ := normalizeDifficultyLevel_ok_of_stringOrAbsent hsk
  have htsf : tsField v = Except.ok ts := by
    unfold tsField
    rw [hts]
    dsimp only
    rw [take_full_of_le htsLen]
    exact mapExcept_fixed (fun e he => canonicalTsEntry_fixed (htsC e he))
  obtain ⟨rl, hrl⟩ := filterHigh_ok_of_canonical htsC
  have hrel : relevantTsField v = Except.ok (rl.take 3) := by
    unfold relevantTsField
    rw [hts]
    dsimp only
    rw [hrl]
  rw [parseAnalysisResponse_of_firstParsed hparse, hvd]
  unfold validateAnalysisBody
  simp only [hrec', hsk', htsf, hrel]
  refine ⟨?_, ?_, ?_, ?_⟩
  · simp [arrTake, hkp, take_full_of_le hkpLen]
  · simp [jsOrJ, hreas, jsTruthy, hreasNe]
  · trivial
  · trivial

/-- C4 (witness): the well-formed response maps its keyPoints, reasoning and
timestamp entry through unchanged, while insights are the generated ones. -/
theorem c4_lossless_witness :
    (parseAnalysisResponse wellFormedResp).keyPoints =
        [Json.str "kp1", Json.str "kp2"] ∧
    (parseAnalysisResponse wellFormedResp).reasoning = Json.str "good match" ∧
    (parseAnalysisResponse wellFormedResp).timestamps = some [tsEntryOne] ∧
    (parseAnalysisResponse wellFormedResp).insights = generateInsights wellFormedVal :=
  c4_lossless_modulo_insights wellFormedResp wellFormedVal
    [Json.str "kp1", Json.str "kp2"] [tsEntryOne] "good match"
    rfl rfl rfl rfl (by decide) rfl (by decide) rfl (by decide)
    (by intro e he; simp only [List.mem_singleton] at he; subst he; decide)

/-- C5: the heuristic fallback extracts the match score by the
`NN%` / `NN/100` / `NN out of 100` pattern search (defaulting to 50 when no
pattern is present), derives the recommendation by the 70/40 thresholds, and
returns no timestamp entries (its `relevantTimestamps` list is empty and it
sets no `timestamps` key). -/
theorem c5_fallback_heuristics :
    (∀ t : String, findScore t.data = none → (fallbackAnalysis t).matchScore = 50) ∧
    (fallbackAnalysis "relevance is about 85% overall").matchScore = 85 ∧
    (fallbackAnalysis "I would say 72/100 here").matchScore = 72 ∧
    (fallbackAnalysis "the score is 60 out of 100 overall").matchScore = 60 ∧
    (∀ t : String, 70 ≤ (fallbackAnalysis t).matchScore →
      (fallbackAnalysis t).recommendation = "RECOMMENDED") ∧
    (∀ t : String, 40 ≤ (fallbackAnalysis t).matchScore →
      (fallbackAnalysis t).matchScore < 70 →
      (fallbackAnalysis t).recommendation = "PARTIALLY_RELEVANT") ∧
    (∀ t : String, (fallbackAnalysis t).matchScore < 40 →
      (fallbackAnalysis t).recommendation = "NOT_RECOMMENDED") ∧
    (∀ t : String, (fallbackAnalysis t).relevantTimestamps = [] ∧
      (fallbackAnalysis t).timestamps = none) := by
  refine ⟨?_, rfl, rfl, rfl, ?_, ?_, ?_, ?_⟩
  · intro t ht
    simp only [fallbackAnalysis]
    unfold extractMatchScore
    rw [ht]
  · intro t h70
    simp only [fallbackAnalysis] at h70 ⊢
    rw [if_pos h70]
  · intro t h40 h70
    simp only [fallbackAnalysis] at h40 h70 ⊢
    rw [if_neg (by omega), if_pos h40]
  · intro t h40
    simp only [fallbackAnalysis] at h40 ⊢
    rw [if_neg (by omega), if_neg (by omega)]
  · intro t
    exact ⟨rfl, rfl⟩

/-- C5 (witness): concrete fallback runs hitting the default and each
threshold bucket. -/
theorem c5_fallback_heuristics_witness :
    (fallbackAnalysis "no numbers here").matchScore = 50 ∧
    (fallbackAnalysis "relevance is about 85% overall").recommendation = "RECOMMENDED" ∧
    (fallbackAnalysis "this is a 55% match").recommendation = "PARTIALLY_RELEVANT" ∧
    (fallbackAnalysis "only a 10% match").recommendation = "NOT_RECOMMENDED" := by
  obtain ⟨h1, _, _, _, h5, h6, h7, h8⟩ := c5_fallback_heuristics
  exact ⟨h1 "no numbers here" rfl, h5 _ (by decide), h6 _ (by decide) (by decide),
    h7 _ (by decide)⟩

theorem lastIdxOf_append_right {l₁ l₂ : List Char} {c : Char} {j : Nat}
    (h : lastIdxOf l₂ c = some j) : lastIdxOf (l₁ ++ l₂) c = some (l₁.length + j) := by
  induction l₁ with
  | nil => simpa using h
  | cons a as ih =>
    have hstep : lastIdxOf ((a :: as) ++ l₂) c =
        (match lastIdxOf (as ++ l₂) c with
         | some i => some (i + 1)
         | none => if a = c then some 0 else none) := rfl
    rw [hstep, ih]
    simp only [List.length_cons, Option.some.injEq]
    omega

/-- C6 (counterexample): the prompt builder actually used by the pipeline
(`buildSimpleAnalysisPrompt`) hard-cuts the transcript at 2000 characters
with no sentence-boundary search: on a 2001-character transcript whose only
full stop sits at index 1998 — within the last 20% of the budget — the
excerpt is cut at the boundary and ends mid-sentence on the character after
the full stop. -/
theorem c6_simple_prompt_counterexample :
    buildSimpleExcerpt midSentenceTranscript =
      String.mk (List.replicate 1998 'a' ++ ['.', 'b']) ++ "..." ∧
    (midSentenceTranscript.data.take 2000).getLast? = some 'b' ∧
    lastIdxInt (midSentenceTranscript.data.take 2000) '.' = 1998 ∧
    4 * (2000 : Int) < 5 * 1998 := by
  have hdata : midSentenceTranscript.data = List.replicate 1998 'a' ++ ['.', 'b', 'c'] := rfl
  have hlen : midSentenceTranscript.data.length = 2001 := by
    rw [hdata]; simp
  have htake : midSentenceTranscript.data.take 2000 =
      List.replicate 1998 'a' ++ ['.', 'b'] := by
    rw [hdata, List.take_append_eq_append_take, List.take_of_length_le (by simp)]
    norm_num
  refine ⟨?_, ?_, ?_, by norm_num⟩
  · unfold buildSimpleExcerpt
    rw [if_pos (by rw [hlen]; norm_num)]
    rw [htake]
  · rw [htake]
    rw [show (List.replicate 1998 'a' ++ ['.', 'b'] : List Char) =
      (List.replicate 1998 'a' ++ ['.']) ++ ['b'] by simp]
    exact List.getLast?_concat _
  · rw [htake]
    have h2 : lastIdxOf (['.', 'b'] : List Char) '.' = some 0 := rfl
    have h3 := @lastIdxOf_append_right (List.replicate 1998 'a') ['.', 'b'] '.' 0 h2
    unfold lastIdxInt
    rw [h3]
    simp

/-- C6 (amended): `intelligentTruncate` — used by `buildAnalysisPrompt` with
budget 4000, but not by the pipeline's `buildSimpleAnalysisPrompt` — cuts at
the last sentence terminator or paragraph break whenever the break point
lies past 80% of the budget, and the cut position then carries a terminator;
any terminator occurring past 80% of the window pushes the break point past
the threshold; the simple prompt builder used by `analyzeContent` hard-cuts
at 2000 unconditionally. -/
theorem c6_intelligent_truncate_boundary :
    (∀ (t : String) (maxLength : Nat), maxLength < t.data.length →
      4 * (maxLength : Int) < 5 * breakPointOf (t.data.take maxLength) →
      intelligentTruncate t maxLength =
        String.mk (t.data.take ((breakPointOf (t.data.take maxLength)).toNat + 1)) ++
          "\n\n[Content truncated for analysis - full transcript analyzed for timestamps]" ∧
      ∃ c, (t.data.take maxLength)[(breakPointOf (t.data.take maxLength)).toNat]? = some c
          ∧ (c = '.' ∨ c = '\n')) ∧
    (∀ (t : String) (maxLength i : Nat), i < maxLength →
      4 * (maxLength : Int) < 5 * (i : Int) → t.data[i]? = some '.' →
      4 * (maxLength : Int) < 5 * breakPointOf (t.data.take maxLength)) ∧
    (∀ t : String, 2000 < t.data.length →
      buildSimpleExcerpt t = String.mk (t.data.take 2000) ++ "...") := by
  refine ⟨?_, ?_, ?_⟩
  · intro t mL hlen hbp
    have hbp' : 4 * (mL : Int) <
        5 * max (lastIdxInt (t.data.take mL) '.') (lastIdxInt (t.data.take mL) '\n') := by
      simpa [breakPointOf] using hbp
    constructor
    · unfold intelligentTruncate
      rw [if_neg (by omega)]
      dsimp only
      rw [if_pos hbp']
      simp [breakPointOf]
    · have h0 : 0 ≤ breakPointOf (t.data.take mL) := by
        have h4 : (0 : Int) ≤ 4 * (mL : Int) := by positivity
        omega
      rcases max_cases (lastIdxInt (t.data.take mL) '.') (lastIdxInt (t.data.take mL) '\n')
        with ⟨heq, _⟩ | ⟨heq, _⟩
      · cases hli : lastIdxOf (t.data.take mL) '.' with
        | none =>
          exfalso
          have hm1 : breakPointOf (t.data.take mL) = -1 := by
            unfold breakPointOf
            rw [heq]
            simp [lastIdxInt, hli]
          omega
        | some j =>
          refine ⟨'.', ?_, Or.inl rfl⟩
          have hbpj : breakPointOf (t.data.take mL) = (j : Int) := by
            unfold breakPointOf
            rw [heq]
            simp [lastIdxInt, hli]
          rw [hbpj]
          simpa using lastIdxOf_get hli
      · cases hli : lastIdxOf (t.data.take mL) '\n' with
        | none =>
          exfalso
          have hm1 : breakPointOf (t.data.take mL) = -1 := by
            unfold breakPointOf
            rw [heq]
            simp [lastIdxInt, hli]
          omega
        | some j =>
          refine ⟨'\n', ?_, Or.inr rfl⟩
          have hbpj : breakPointOf (t.data.take mL) = (j : Int) := by
            unfold breakPointOf
            rw [heq]
            simp [lastIdxInt, hli]
          rw [hbpj]
          simpa using lastIdxOf_get hli
  · intro t mL i hiLt hith hdot
    have htake : (t.data.take mL)[i]? = some '.' := by
      rw [getElem?_take_lt hiLt]; exact hdot
    obtain ⟨j, hj, hij⟩ := lastIdxOf_ge htake
    have hile : (i : Int) ≤ lastIdxInt (t.data.take mL) '.' := by
      simp only [lastIdxInt, hj]
      have hcast : Int.ofNat j = (j : Int) := rfl
      rw [hcast]
      exact_mod_cast hij
    have hle : lastIdxInt (t.data.take mL) '.' ≤ breakPointOf (t.data.take mL) := by
      unfold breakPointOf
      exact le_max_left _ _
    omega
  · intro t h
    unfold buildSimpleExcerpt
    rw [if_pos h]

/-- C6 (witness): the boundary cut at budget 10 on a concrete transcript with
a full stop at index 9, and the unconditional simple-prompt hard cut on a
2001-character transcript. -/
theorem c6_truncation_witness :
    intelligentTruncate tinyTranscript 10 =
      String.mk (tinyTranscript.data.take
        ((breakPointOf (tinyTranscript.data.take 10)).toNat + 1)) ++
        "\n\n[Content truncated for analysis - full transcript analyzed for timestamps]" ∧
    buildSimpleExcerpt longPlainTranscript =
      String.mk (longPlainTranscript.data.take 2000) ++ "..." := by
  obtain ⟨h1, _, h3⟩ := c6_intelligent_truncate_boundary
  exact ⟨(h1 tinyTranscript 10 (by decide) (by decide)).1,
    h3 longPlainTranscript (by simp [longPlainTranscript])⟩

/-- C7: enum coercion is total with documented defaults: for every raw
string or absent input, `normalizeRecommendation` returns a member of the
recommendation set, accepting valid members case-insensitively (lowercase
`recommended` maps to `RECOMMENDED`) and substituting `PARTIALLY_RELEVANT`
when the value is absent or unrecognized; `normalizeSkipRecommendation`
likewise always returns a member of its set, defaulting to `RECOMMENDED`. -/
theorem c7_enum_coercion_total :
    (∀ v : String, ∃ u, normalizeRecommendation (some (Json.str v)) = Except.ok u ∧
      validRecommendations.contains u = true) ∧
    normalizeRecommendation none = Except.ok "PARTIALLY_RELEVANT" ∧
    (∀ v : String, validRecommendations.contains (upperAscii v) = true →
      normalizeRecommendation (some (Json.str v)) = Except.ok (upperAscii v)) ∧
    (∀ v : String, validRecommendations.contains (upperAscii v) = false →
      normalizeRecommendation (some (Json.str v)) = Except.ok "PARTIALLY_RELEVANT") ∧
    normalizeRecommendation (some (Json.str "recommended")) = Except.ok "RECOMMENDED" ∧
    (∀ v : String, ∃ u, normalizeSkipRecommendation (some (Json.str v)) = Except.ok u ∧
      validSkipRecommendations.contains u = true) ∧
    normalizeSkipRecommendation none = Except.ok "RECOMMENDED" ∧
    (∀ v : String, validSkipRecommendations.contains (upperAscii v) = false →
      normalizeSkipRecommendation (some (Json.str v)) = Except.ok "RECOMMENDED") := by
  refine ⟨?_, rfl, ?_, ?_, rfl, ?_, rfl, ?_⟩
  · intro v
    refine ⟨_, rfl, ?_⟩
    dsimp only [normalizeRecommendation]
    split
    · rename_i hc
      exact hc
    · decide
  · intro v h
    have h' : upperAscii v ∈ validRecommendations := by simpa using h
    simp [normalizeRecommendation, h']
  · intro v h
    have h' : upperAscii v ∉ validRecommendations := by simpa using h
    simp [normalizeRecommendation, h']
  · intro v
    refine ⟨_, rfl, ?_⟩
    dsimp only [normalizeSkipRecommendation]
    split
    · rename_i hc
      exact hc
    · decide
  · intro v h
    have h' : upperAscii v ∉ validSkipRecommendations := by simpa using h
    simp [normalizeSkipRecommendation, h']

/-- C7 (witness): concrete coercions — unrecognized strings take the
documented defaults and a lowercase valid member is accepted. -/
theorem c7_enum_coercion_witness :
    normalizeRecommendation (some (Json.str "banana")) = Except.ok "PARTIALLY_RELEVANT" ∧
    normalizeSkipRecommendation (some (Json.str "banana")) = Except.ok "RECOMMENDED" ∧
    normalizeRecommendation (some (Json.str "highly_recommended")) =
      Except.ok "HIGHLY_RECOMMENDED" := by
  obtain ⟨_, _, h3, h4, _, _, _, h8⟩ := c7_enum_coercion_total
  refine ⟨h4 "banana" (by decide), h8 "banana" (by decide), ?_⟩
  have := h3 "highly_recommended" (by decide)
  simpa using this

/-- C8 (counterexample): the caption-fetch implementation returns the empty
string as a successful transcript when the fetched segments contain only
whitespace — a technically successful fetch with zero usable content is not
treated as failure there. -/
theorem c8_captions_empty_counterexample :
    extractTranscriptCaptions "production" "" "https://youtu.be/abcdefghijk" [" "] =
      Except.ok (MockValue.str "") := rfl

/-- C8 (amended): the Innertube-based `extractTranscript` never returns
empty text — every successful result is a non-empty string (an empty joined
transcript raises `Transcript content is empty`); the caption-fetch-based
implementation lacks that final check and can return the empty string. -/
theorem c8_innertube_transcript_nonempty (videoUrl : String)
    (fetched : InnertubeFetch) (t : String)
    (h : extractTranscriptInnertube videoUrl fetched = Except.ok t) : t ≠ "" := by
  unfold extractTranscriptInnertube at h
  rcases hx : extractVideoId videoUrl with _ | vid
  · rw [hx] at h; cases h
  · rw [hx] at h
    dsimp only at h
    rcases fetched with msg | _ | _ | segs
    · cases h
    · cases h
    · cases h
    · dsimp only at h
      by_cases he : segs.isEmpty = true
      · rw [if_pos he] at h; cases h
      · rw [if_neg he] at h
        by_cases hj : joinTranscript segs = ""
        · rw [if_pos hj] at h; cases h
        · rw [if_neg hj] at h
          injection h with h'
          subst h'
          exact hj

/-- C8 (witness): a successful Innertube extraction on a concrete segment
list, and its non-emptiness. -/
theorem c8_innertube_witness :
    extractTranscriptInnertube "https://youtu.be/abcdefghijk"
      (InnertubeFetch.segments ["hello world"]) = Except.ok "hello world" ∧
    ("hello world" : String) ≠ "" :=
  ⟨rfl, c8_innertube_transcript_nonempty "https://youtu.be/abcdefghijk"
    (InnertubeFetch.segments ["hello world"]) "hello world" rfl⟩

/-- C9 (counterexample): metadata resolution can propagate an error — an
unresolvable URL throws `Invalid YouTube URL format` before the placeholder
fallback is reachable, so it is not the case that for every video URL a
failure yields a placeholder record. -/
theorem c9_invalid_url_counterexample :
    getVideoMetadata "not-a-url" (Except.error ()) = Except.error () := rfl

/-- C9 (amended): for every URL with an extractable video id, a metadata
fetch failure is swallowed: the resolver returns the placeholder record with
title `Video Title Not Available` and null duration and channel fields
instead of propagating the failure. -/
theorem c9_metadata_placeholder_on_failure (videoUrl videoId : String)
    (h : extractVideoId videoUrl = some videoId) :
    getVideoMetadata videoUrl (Except.error ()) = Except.ok
      { videoId := videoId, url := videoUrl, title := "Video Title Not Available",
        duration := none, channelName := none, extractedAt := true } := by
  unfold getVideoMetadata
  rw [h]

/-- C9 (witness): the placeholder record on fetch failure for a concrete
URL. -/
theorem c9_metadata_witness :
    getVideoMetadata "https://youtu.be/abcdefghijk" (Except.error ()) = Except.ok
      { videoId := "abcdefghijk", url := "https://youtu.be/abcdefghijk",
        title := "Video Title Not Available", duration := none, channelName := none,
        extractedAt := true } :=
  c9_metadata_placeholder_on_failure "https://youtu.be/abcdefghijk" "abcdefghijk" rfl

theorem defaultMock_ne_empty (videoId : String) : defaultMockTranscript videoId ≠ "" := by
  intro hcontra
  have hl := congrArg String.length hcontra
  unfold defaultMockTranscript at hl
  rw [String.length_append, String.length_append] at hl
  have h36 : ("This is a mock transcript for video " : String).length = 36 := rfl
  have h0 : ("" : String).length = 0 := rfl
  rw [h36, h0] at hl
  omega

/-- C10 (counterexample): in development mode with no caption segments, the
video id `constructor` — a syntactically valid eleven-character id — hits the
inherited `Object.prototype.constructor` member of the mock-transcript table,
so `extractTranscript` returns that inherited member rather than a mock
transcript string. -/
theorem c10_constructor_key_counterexample :
    extractTranscriptCaptions "development" "" "https://youtu.be/constructor" [] =
      Except.ok MockValue.inheritedMember ∧
    (∀ s : String, MockValue.inheritedMember ≠ MockValue.str s) :=
  ⟨rfl, fun _ h => MockValue.noConfusion h⟩

/-- C10 (amended): when `NODE_ENV` is `development` or `MOCK_TRANSCRIPTS` is
`true` and the caption fetch yields no segments, `extractTranscript` returns
the mock-table entry for the video id; for every id that is not an
`Object.prototype` property name this is a non-empty hard-coded transcript
string (the known id `dQw4w9WgXcQ` gets its dedicated text, any other id the
default text). -/
theorem c10_mock_transcript_dev_mode (nodeEnv mockFlag videoUrl videoId : String)
    (h1 : extractVideoId videoUrl = some videoId)
    (h2 : mockTranscriptsEnabled nodeEnv mockFlag = true)
    (h3 : objectProtoKeys.contains videoId = false) :
    extractTranscriptCaptions nodeEnv mockFlag videoUrl [] =
      Except.ok (getMockTranscript videoId) ∧
    ∃ s, getMockTranscript videoId = MockValue.str s ∧ s ≠ "" := by
  constructor
  · unfold extractTranscriptCaptions
    rw [h1]
    simp [h2]
  · unfold getMockTranscript
    by_cases hr : videoId = "dQw4w9WgXcQ"
    · rw [if_pos hr]
      exact ⟨rickTranscript, rfl, by decide⟩
    · rw [if_neg hr]
      by_cases hd : videoId = "default"
      · rw [if_pos hd]
        exact ⟨_, rfl, defaultMock_ne_empty _⟩
      · have h3' : videoId ∉ objectProtoKeys := by simpa using h3
        rw [if_neg hd, if_neg (by simp [h3'])]
        exact ⟨_, rfl, defaultMock_ne_empty _⟩

/-- C10 (witness): development mode, no segments, an ordinary video id — the
dedicated mock text is returned and is non-empty. -/
theorem c10_mock_transcript_witness :
    extractTranscriptCaptions "development" "" "https://youtu.be/dQw4w9WgXcQ" [] =
      Except.ok (getMockTranscript "dQw4w9WgXcQ") ∧
    ∃ s, getMockTranscript "dQw4w9WgXcQ" = MockValue.str s ∧ s ≠ "" :=
  c10_mock_transcript_dev_mode "development" "" "https://youtu.be/dQw4w9WgXcQ"
    "dQw4w9WgXcQ" rfl rfl (by decide)
